import Mathlib

/-
  Verification of the ConnectedCewenBox protocol engine.

  Shallow embedding of:
  - the host-side protocol codec, `ProtocolService.ts` (TLV codec, frame codec,
    CRC32, packet counter);
  - the host-side stream reassembler and request correlator,
    `CommunicationManager.ts`;
  - the device-side escaping, frame building and TLV helpers (`protocol.c`),
    command dispatcher (`command_handler.c` / `communication.c`) and the
    temperature-log ring buffer (`buffers.cpp`).

  Bytes are modelled as `Nat` (values kept < 256 where the source stores them
  in `Uint8Array` / `uint8_t` cells); machine arithmetic is made explicit with
  `% 2^w`.  JS strings are represented by their UTF-8 byte sequences, and JS
  numbers holding float32 data by their 4-byte IEEE-754 bit pattern, so the
  codec is a total function on byte-level data.
-/

namespace CewenBox

/-- Little-endian 2-byte serialization of a `Nat`, as done by
`DataView.setUint16(-, -, true)` (which truncates to 16 bits). -/
def toLE2 (n : Nat) : List Nat := [n % 256, n / 256 % 256]

/-- Little-endian 4-byte serialization, as `DataView.setUint32` (mod 2^32). -/
def toLE4 (n : Nat) : List Nat :=
  [n % 256, n / 2 ^ 8 % 256, n / 2 ^ 16 % 256, n / 2 ^ 24 % 256]

/-- Little-endian 8-byte serialization, as `DataView.setBigUint64` (mod 2^64). -/
def toLE8 (n : Nat) : List Nat :=
  [n % 256, n / 2 ^ 8 % 256, n / 2 ^ 16 % 256, n / 2 ^ 24 % 256,
   n / 2 ^ 32 % 256, n / 2 ^ 40 % 256, n / 2 ^ 48 % 256, n / 2 ^ 56 % 256]

/-- Little-endian read of 2 bytes (`DataView.getUint16(-, true)`). -/
def fromLE2 (a b : Nat) : Nat := a + 256 * b

/-- Little-endian read of 4 bytes (`DataView.getUint32` / `getFloat32` bits). -/
def fromLE4 (a b c d : Nat) : Nat := a + 2 ^ 8 * b + 2 ^ 16 * c + 2 ^ 24 * d

/-- Little-endian read of 8 bytes (`DataView.getBigUint64(-, true)`). -/
def fromLE8 (a b c d e f g h : Nat) : Nat :=
  a + 2 ^ 8 * b + 2 ^ 16 * c + 2 ^ 24 * d +
  2 ^ 32 * e + 2 ^ 40 * f + 2 ^ 48 * g + 2 ^ 56 * h

/-- All entries of a byte list fit in one byte. -/
def BytesOK (l : List Nat) : Prop := ∀ b ∈ l, b < 256

mutual

/-- A TLV value as manipulated by `ProtocolService.ts` (`TLVField.value`):
integral JS numbers (`vInt`), non-integral JS numbers represented by the
IEEE-754 float32 bit pattern they are serialized to (`vF32`), JS strings
represented by their UTF-8 bytes (`vStr`), and nested TLV arrays (`vArr`). -/
inductive TLVValue : Type where
  | vInt : Nat → TLVValue
  | vF32 : Nat → TLVValue
  | vStr : List Nat → TLVValue
  | vArr : TLVList → TLVValue

/-- A sequence of TLV fields; each field is a 2-character tag (the two ASCII
char codes) together with its value. -/
inductive TLVList : Type where
  | nil : TLVList
  | cons : Nat × Nat → TLVValue → TLVList → TLVList

end

mutual

/-- Value encoding of `ProtocolService.encodeTLV` (ProtocolService.ts:141-200):
strings become their UTF-8 bytes; integers take the smallest of u8/u16/u32/u64
(little-endian); non-integral numbers are 4 float32 bytes; arrays are the
concatenation of the TLV encodings of their elements. -/
def encodeValue : TLVValue → List Nat
  | .vStr s => s
  | .vInt n =>
      if n ≤ 0xFF then [n]
      else if n ≤ 0xFFFF then toLE2 n
      else if n ≤ 0xFFFFFFFF then toLE4 n
      else toLE8 n
  | .vF32 b => toLE4 b
  | .vArr items => encodeTLVList items

/-- Concatenated TLV encoding of a field sequence (the nested-array loop of
`encodeTLV` and the payload loop of `encodePacket`). -/
def encodeTLVList : TLVList → List Nat
  | .nil => []
  | .cons t v rest =>
      [t.1, t.2] ++ toLE2 (encodeValue v).length ++ encodeValue v
        ++ encodeTLVList rest

end

/-- `ProtocolService.encodeTLV`: 2 tag bytes, 2-byte little-endian length,
then the value bytes.  The tag is given directly as its two char codes, so
the `tag.length !== 2` guard of the source cannot fire. -/
def encodeTLV (t : Nat × Nat) (v : TLVValue) : List Nat :=
  [t.1, t.2] ++ toLE2 (encodeValue v).length ++ encodeValue v

/-- How `decodeTLV` interprets a value, keyed by the tag (the `switch` at
ProtocolService.ts:220-269). -/
inductive TagKind : Type where
  | kF32 | kU8 | kU16 | kU64 | kStr | kNested
  deriving DecidableEq

/-- The closed tag table of `ProtocolService.decodeTLV`: `T `/`L `/`H ` are
float32; `ST EC YY MM DD WK HH SS ID` are u8; `MX` is u16; `TS T1 T2` are u64;
`IN ED` are strings; `DA AL LG IT` are nested TLV arrays; anything else
defaults to a UTF-8 string. -/
def tagKind (t : Nat × Nat) : TagKind :=
  if t = (0x54, 0x20) then .kF32
  else if t = (0x53, 0x54) ∨ t = (0x45, 0x43) ∨ t = (0x59, 0x59) ∨
          t = (0x4D, 0x4D) ∨ t = (0x44, 0x44) ∨ t = (0x57, 0x4B) ∨
          t = (0x48, 0x48) ∨ t = (0x53, 0x53) ∨ t = (0x49, 0x44) then .kU8
  else if t = (0x4D, 0x58) then .kU16
  else if t = (0x54, 0x53) ∨ t = (0x54, 0x31) ∨ t = (0x54, 0x32) then .kU64
  else if t = (0x4C, 0x20) ∨ t = (0x48, 0x20) then .kF32
  else if t = (0x49, 0x4E) ∨ t = (0x45, 0x44) then .kStr
  else if t = (0x44, 0x41) ∨ t = (0x41, 0x4C) ∨ t = (0x4C, 0x47) ∨
          t = (0x49, 0x54) then .kNested
  else .kStr

mutual

/-- `ProtocolService.decodeTLV` (ProtocolService.ts:203-276): reads tag and
little-endian length at `offset`, checks `offset + 4 + length` against the
buffer, slices the value bytes and interprets them according to `tagKind`.
Thrown exceptions (truncated header/value, `DataView` reads past the value
slice) are modelled as `none`; a u8 tag with an empty value, where JS yields
`undefined`, is also modelled as `none` (no claim exercises it).  Fixed-width
reads use only the first 1/2/4/8 value bytes, exactly like the `DataView`
calls on the sliced value. -/
def decodeTLV (data : List Nat) (offset : Nat) :
    Option ((Nat × Nat) × TLVValue × Nat) :=
  if _h4 : offset + 4 ≤ data.length then
    let t0 := data.getD offset 0
    let t1 := data.getD (offset + 1) 0
    let len := fromLE2 (data.getD (offset + 2) 0) (data.getD (offset + 3) 0)
    if _hlen : offset + 4 + len ≤ data.length then
      let vb := (data.drop (offset + 4)).take len
      match tagKind (t0, t1) with
      | .kF32 =>
          if 4 ≤ len then
            some ((t0, t1),
              .vF32 (fromLE4 (vb.getD 0 0) (vb.getD 1 0) (vb.getD 2 0)
                (vb.getD 3 0)), offset + 4 + len)
          else none
      | .kU8 =>
          if 1 ≤ len then some ((t0, t1), .vInt (vb.getD 0 0), offset + 4 + len)
          else none
      | .kU16 =>
          if 2 ≤ len then
            some ((t0, t1), .vInt (fromLE2 (vb.getD 0 0) (vb.getD 1 0)),
              offset + 4 + len)
          else none
      | .kU64 =>
          if 8 ≤ len then
            some ((t0, t1),
              .vInt (fromLE8 (vb.getD 0 0) (vb.getD 1 0) (vb.getD 2 0)
                (vb.getD 3 0) (vb.getD 4 0) (vb.getD 5 0) (vb.getD 6 0)
                (vb.getD 7 0)), offset + 4 + len)
          else none
      | .kStr => some ((t0, t1), .vStr vb, offset + 4 + len)
      | .kNested =>
          match decodeTLVList vb 0 with
          | some items => some ((t0, t1), .vArr items, offset + 4 + len)
          | none => none
    else none
  else none
termination_by (data.length, data.length - offset, 0)
decreasing_by
  simp_wf
  apply Prod.Lex.left
  exact lt_of_le_of_lt inf_le_right (by omega)

/-- The `while (nestedOffset < valueBytes.length)` loop of `decodeTLV` and the
payload loop of `decodePacket`: decode TLV fields until the offset reaches the
end of the buffer.  The `offset < next` guard records that each step advances
(always true, since a field occupies `4 + length` bytes). -/
def decodeTLVList (data : List Nat) (offset : Nat) : Option TLVList :=
  if offset < data.length then
    match decodeTLV data offset with
    | some (t, v, next) =>
        if _h : offset < next then
          match decodeTLVList data next with
          | some rest => some (.cons t v rest)
          | none => none
        else none
    | none => none
  else some .nil
termination_by (data.length, data.length - offset, 1)
decreasing_by
  · exact Prod.Lex.right _ (Prod.Lex.right _ (by omega))
  · exact Prod.Lex.right _ (Prod.Lex.left _ _ (by omega))

end

/-! ## Tag/value compatibility

`encodeTLV` picks the wire width from the *value* (smallest integer width,
float32, string bytes, nested encoding) while `decodeTLV` picks it from the
*tag* (the closed `tagKind` table).  The round-trip law therefore holds
exactly when the two agree; `WFValue` captures that agreement.  The integer
bounds also keep the JS `Number`/`BigInt` conversions exact (≤ 2^53) and the
length fields within their u16 cells. -/

mutual

/-- Value `v` is decoded back unchanged under tag `t`: its encoded form has
the kind and width that `tagKind t` makes `decodeTLV` read. -/
def WFValue : Nat × Nat → TLVValue → Prop
  | t, .vInt n =>
      match tagKind t with
      | .kU8 => n ≤ 0xFF
      | .kU16 => 0xFF < n ∧ n ≤ 0xFFFF
      | .kU64 => 0xFFFFFFFF < n ∧ n < 2 ^ 53
      | _ => False
  | t, .vF32 b => tagKind t = .kF32 ∧ b < 2 ^ 32
  | t, .vStr s => tagKind t = .kStr ∧ BytesOK s ∧ s.length ≤ 0xFFFF
  | t, .vArr items => tagKind t = .kNested ∧ WFList items ∧
      (encodeTLVList items).length ≤ 0xFFFF

/-- All fields of the sequence are byte-valid (ASCII tag cells) and
tag/value compatible. -/
def WFList : TLVList → Prop
  | .nil => True
  | .cons t v rest => t.1 < 256 ∧ t.2 < 256 ∧ WFValue t v ∧ WFList rest

end

/-! ## CRC32 (ProtocolService.ts:107-133) -/

/-- One bit-step of the MSB-first CRC: shift left and, if bit 31 was set,
xor in the polynomial `0x04C11DB7`; the result is kept in 32 bits (the inner
loop of `initCRC32Table`, ProtocolService.ts:113-119). -/
def crcShift (c : Nat) : Nat :=
  if c.testBit 31 then ((c <<< 1) ^^^ 0x04C11DB7) % 2 ^ 32
  else (c <<< 1) % 2 ^ 32

/-- Entry `i` of the CRC table built by `initCRC32Table`: eight `crcShift`
steps applied to `i <<< 24` (call sites mask the index to 8 bits). -/
def crcTable (i : Nat) : Nat := crcShift^[8] (i <<< 24)

/-- One byte of `calculateCRC32` (ProtocolService.ts:127-130):
`index = ((crc >>> 24) ^ byte) & 0xFF; crc = ((crc << 8) ^ table[index]) >>> 0`. -/
def crcByteStep (crc b : Nat) : Nat :=
  ((crc <<< 8) % 2 ^ 32) ^^^ crcTable (((crc >>> 24) ^^^ b) % 256)

/-- The unsigned 32-bit CRC computed by the loop of
`ProtocolService.calculateCRC32` (initial value `0xFFFFFFFF`, the register
kept unsigned by `>>> 0` at every step) followed by the final xor
`0xFFFFFFFF`, reduced to 32 unsigned bits. -/
def crc32u (data : List Nat) : Nat :=
  (data.foldl crcByteStep 0xFFFFFFFF) ^^^ 0xFFFFFFFF

/-- JavaScript `ToInt32`: the value a JS bitwise operator returns, reading
the low 32 bits of its result as a signed two's-complement number. -/
def toInt32 (x : Nat) : Int :=
  if x % 2 ^ 32 < 2 ^ 31 then ((x % 2 ^ 32 : Nat) : Int)
  else ((x % 2 ^ 32 : Nat) : Int) - 2 ^ 32

/-- JavaScript `ToUint32`, applied by `DataView.setUint32` to its argument
before storing it. -/
def toUint32 (i : Int) : Nat := (i % 2 ^ 32).toNat

/-- `ProtocolService.calculateCRC32` (ProtocolService.ts:124-133): the loop
keeps the register unsigned, but the return statement `crc ^ 0xFFFFFFFF` is
a JS bitwise xor with no `>>> 0`, so the function's value is the signed
int32 reading of the final CRC: negative whenever bit 31 is set. -/
def calculateCRC32 (data : List Nat) : Int := toInt32 (crc32u data)

/-- CRC32 exactly as §4.3 of the spec words it, processed bit by bit: each
byte is xored into the top of the register MSB-first and shifted out through
the polynomial `0x04C11DB7`, with initial value `0xFFFFFFFF` and final xor
`0xFFFFFFFF`, no reflection.  This is the spec-side definition that the
table-driven source implementation is compared against. -/
def crc32_bitwise (data : List Nat) : Nat :=
  (data.foldl (fun crc b => crcShift^[8] (crc ^^^ (b <<< 24))) 0xFFFFFFFF)
    ^^^ 0xFFFFFFFF

/-! ## Frame codec (ProtocolService.ts:279-432) -/

/-- A decoded v2 frame (`ProtocolPacket` of ProtocolService.ts). -/
structure Packet where
  version : Nat
  ptype : Nat
  packetNumber : Nat
  responseNumber : Nat
  data : TLVList

/-- `ProtocolService.encodePacket` (ProtocolService.ts:279-347) together with
`getNextPacketNumber`: takes the current `packetCounter`, bumps it once
(modulo 128), serializes the TLV payload, computes the CRC32 over
version‖type‖packetId‖responseId‖payloadLen‖payload, and assembles
markers, header, payload, CRC and trailer (`setUint32` stores the signed
return value of `calculateCRC32` through `ToUint32`).  Returns the frame
and the new counter value (which equals the assigned packet number). -/
def encodePacket (counter ptype : Nat) (data : TLVList) (responseNumber : Nat) :
    List Nat × Nat :=
  let packetNumber := (counter + 1) % 128
  let payload := encodeTLVList data
  let crcData := [0x02, ptype % 256] ++ toLE2 packetNumber ++
    toLE2 responseNumber ++ toLE2 payload.length ++ payload
  let frame := [0xAA, 0x55, 0x02, ptype % 256] ++ toLE2 packetNumber ++
    toLE2 responseNumber ++ toLE2 payload.length ++ payload ++
    toLE4 (toUint32 (calculateCRC32 crcData)) ++ [0x55, 0xAA]
  (frame, packetNumber)

/-- `ProtocolService.decodePacket` (ProtocolService.ts:350-432): requires 16
bytes, checks the start marker, reads the little-endian header fields, checks
the declared length against the buffer, TLV-decodes the payload, recomputes
the CRC32 over version‖type‖packetId‖responseId‖payloadLen‖payload and
compares the signed int32 value `calculateCRC32` returns with the unsigned
`getUint32` field (`calculatedCRC !== receivedCRC`), and checks the end
marker.  Every `throw` of the source is `none`. -/
def decodePacket (buffer : List Nat) : Option Packet :=
  if buffer.length < 16 then none
  else if buffer.getD 0 0 = 0xAA ∧ buffer.getD 1 0 = 0x55 then
    let version := buffer.getD 2 0
    let ptype := buffer.getD 3 0
    let packetNumber := fromLE2 (buffer.getD 4 0) (buffer.getD 5 0)
    let responseNumber := fromLE2 (buffer.getD 6 0) (buffer.getD 7 0)
    let dataLength := fromLE2 (buffer.getD 8 0) (buffer.getD 9 0)
    if buffer.length < 10 + dataLength + 4 + 2 then none
    else
      let dataBuffer := (buffer.drop 10).take dataLength
      match decodeTLVList dataBuffer 0 with
      | none => none
      | some data =>
          let receivedCRC := fromLE4 (buffer.getD (10 + dataLength) 0)
            (buffer.getD (11 + dataLength) 0) (buffer.getD (12 + dataLength) 0)
            (buffer.getD (13 + dataLength) 0)
          let calcCRC := calculateCRC32 ([version, ptype] ++
            toLE2 packetNumber ++ toLE2 responseNumber ++ toLE2 dataLength ++
            dataBuffer)
          if calcCRC = (receivedCRC : Int) then
            if buffer.getD (14 + dataLength) 0 = 0x55 ∧
                buffer.getD (15 + dataLength) 0 = 0xAA then
              some ⟨version, ptype, packetNumber, responseNumber, data⟩
            else none
          else none
  else none

/-- `ProtocolService.createPingRequest` (ProtocolService.ts:437-442): a
HOST_REQUEST whose payload is the `IN` TLV `"ping"` and an empty `DA` TLV,
starting from the given counter state. -/
def createPingRequest (counter : Nat) : List Nat × Nat :=
  encodePacket counter 0x00
    (.cons (0x49, 0x4E) (.vStr [0x70, 0x69, 0x6E, 0x67])
      (.cons (0x44, 0x41) (.vArr .nil) .nil)) 0

/-! ## Byte escaping (protocol.c, `escape_data` / `unescape_data`) -/

/-- `escape_data` (protocol.c:23-42): every `0xAA` or `0x55` byte is emitted
followed by the stuffing byte `ESCAPE_BYTE = 0x00`; every other byte passes
through unchanged.  The C function's output-capacity failure cannot occur
with an unbounded output list and is not modelled. -/
def escape_data : List Nat → List Nat
  | [] => []
  | b :: rest =>
      if b = 0xAA ∨ b = 0x55 then b :: 0x00 :: escape_data rest
      else b :: escape_data rest

/-- `unescape_data` (protocol.c:45-65): an `0xAA`/`0x55` followed by the
stuffing byte yields the byte and skips the stuffing; a bare `0xAA 0x55` or
`0x55 0xAA` pair is a marker inside the body and fails (the C function's
`-1`, modelled as `none`); anything else passes through. -/
def unescape_data : List Nat → Option (List Nat)
  | [] => some []
  | [b] => some [b]
  | b :: c :: rest =>
      if (b = 0xAA ∨ b = 0x55) ∧ c = 0x00 then
        (unescape_data rest).map (b :: ·)
      else if (b = 0xAA ∧ c = 0x55) ∨ (b = 0x55 ∧ c = 0xAA) then none
      else (unescape_data (c :: rest)).map (b :: ·)

/-- A start (`AA 55`) or end (`55 AA`) marker pair sits at position `i`. -/
def hasMarkerPairAt (l : List Nat) (i : Nat) : Prop :=
  (l.getD i 0 = 0xAA ∧ l.getD (i + 1) 0 = 0x55) ∨
  (l.getD i 0 = 0x55 ∧ l.getD (i + 1) 0 = 0xAA)

/-! ## Stream reassembler (CommunicationManager.tryParsePackets, 132-189) -/

/-- The start-marker scan of `tryParsePackets`
(CommunicationManager.ts:137-146): index of the first adjacent `AA 55`
pair, or `none`. -/
def findStart : List Nat → Option Nat
  | a :: b :: rest =>
      if a = 0xAA ∧ b = 0x55 then some 0
      else (findStart (b :: rest)).map (· + 1)
  | _ => none

/-- `CommunicationManager.tryParsePackets`: while at least 16 bytes are
buffered, scan for the start marker (none ⇒ clear the buffer and stop; found
at `i > 0` ⇒ drop the garbage), wait for the full `16 + dataLength` bytes,
then slice out one frame, hand it to `parseResponse`/`handleParsedResponse`,
and loop.  Returns the final buffer and the sliced frames, in delivery order.
The `catch` of the source is dead code (`parseResponse` catches internally),
so no byte-dropping resync path is modelled. -/
def tryParsePackets (buffer : List Nat) : List Nat × List (List Nat) :=
  if buffer.length < 16 then (buffer, [])
  else
    match findStart buffer with
    | none => ([], [])
    | some i =>
        let b := buffer.drop i
        if b.length < 16 then (b, [])
        else
          let dataLength := fromLE2 (b.getD 10 0) (b.getD 11 0)
          let total := 16 + dataLength
          if b.length < total then (b, [])
          else
            let out := tryParsePackets (b.drop total)
            (out.1, b.take total :: out.2)
termination_by buffer.length
decreasing_by
  simp only [List.length_drop]
  have : (List.drop i buffer).length ≤ buffer.length := by
    simp [List.length_drop]
  simp only [List.length_drop] at *
  omega

/-- A start-marker pair `AA 55` sits at position `i` (out-of-range reads
default to 0 and can never witness a pair). -/
def hasStartPairAt (l : List Nat) (i : Nat) : Prop :=
  l.getD i 0 = 0xAA ∧ l.getD (i + 1) 0 = 0x55

/-! ## Request correlator (CommunicationManager, pendingRequests) -/

/-- JS `Map.set` on the pending-request table: replaces the value of an
existing key in place, otherwise appends a new entry. -/
def mapSet (m : List (String × Nat)) (k : String) (v : Nat) :
    List (String × Nat) :=
  match m with
  | [] => [(k, v)]
  | (k', v') :: rest =>
      if k' = k then (k, v) :: rest else (k', v') :: mapSet rest k v

/-- JS `Map.get`. -/
def mapGet (m : List (String × Nat)) (k : String) : Option Nat :=
  match m with
  | [] => none
  | (k', v') :: rest => if k' = k then some v' else mapGet rest k

/-- JS `Map.delete`. -/
def mapDelete (m : List (String × Nat)) (k : String) : List (String × Nat) :=
  match m with
  | [] => []
  | (k', v') :: rest =>
      if k' = k then rest else (k', v') :: mapDelete rest k

/-- An observable settlement of a caller's promise by the correlator. -/
inductive CorrEvent where
  | resolved : String → Nat → CorrEvent
  | rejected : String → Nat → CorrEvent

/-- The synchronous registration step of `CommunicationManager.sendRequest`
(CommunicationManager.ts:227-238), with the promise of the new request named
by `reqId`: it arms a timer (collaborator) and does
`pendingRequests.set(command, …)` — the source neither looks up nor settles
any existing entry for `command`, and has no failure result for that case.
The returned event list holds the promise settlements performed by the step
(none). -/
def sendRequestRegister (pending : List (String × Nat)) (command : String)
    (reqId : Nat) : List (String × Nat) × List CorrEvent :=
  (mapSet pending command reqId, [])

/-- The timeout callback of `sendRequest` (CommunicationManager.ts:228-231)
for the request `reqId` on `command`: deletes whatever entry is current for
`command` and rejects its own promise. -/
def timeoutFire (pending : List (String × Nat)) (command : String)
    (reqId : Nat) : List (String × Nat) × List CorrEvent :=
  (mapDelete pending command, [.rejected command reqId])

/-- `CommunicationManager.handleParsedResponse` (192-208): if an entry is
pending for the response's command, cancel its timer, remove it and resolve
it; otherwise only warn. -/
def handleResponse (pending : List (String × Nat)) (command : String) :
    List (String × Nat) × List CorrEvent :=
  match mapGet pending command with
  | some reqId => (mapDelete pending command, [.resolved command reqId])
  | none => (pending, [])

/-! ## Device-side TLV reading and writing (protocol.c:211-387) -/

def MAX_PACKET_SIZE : Nat := 512

def MAX_DATA_SIZE : Nat := MAX_PACKET_SIZE - 16

/-- The scan loop shared by the `read_tlv_*` functions (protocol.c:273-387):
starting at `i` (with the C loop bound `i < buffer_size - 4`, i.e.
`i + 4 < buffer_size` for the ≥ 4-byte buffers used here), find a TLV whose
tag matches and whose length passes `ok` and fits the buffer; any other TLV
is skipped by `4 + length`.  Returns the value's start position and length. -/
def read_tlv_findP (buffer : List Nat) (t : Nat × Nat) (ok : Nat → Bool)
    (i : Nat) : Option (Nat × Nat) :=
  if i + 4 < buffer.length then
    if buffer.getD i 0 = t.1 ∧ buffer.getD (i + 1) 0 = t.2 ∧
        ok (fromLE2 (buffer.getD (i + 2) 0) (buffer.getD (i + 3) 0)) ∧
        i + 4 + fromLE2 (buffer.getD (i + 2) 0) (buffer.getD (i + 3) 0) ≤
          buffer.length then
      some (i + 4, fromLE2 (buffer.getD (i + 2) 0) (buffer.getD (i + 3) 0))
    else read_tlv_findP buffer t ok
      (i + 4 + fromLE2 (buffer.getD (i + 2) 0) (buffer.getD (i + 3) 0))
  else none
termination_by buffer.length - i

/-- `read_tlv_uint8` (protocol.c:273-290): value must have length exactly 1. -/
def read_tlv_uint8 (buffer : List Nat) (t : Nat × Nat) : Option Nat :=
  (read_tlv_findP buffer t (fun len => len == 1) 0).map
    fun p => buffer.getD p.1 0

/-- `read_tlv_uint16` (protocol.c:292-309). -/
def read_tlv_uint16 (buffer : List Nat) (t : Nat × Nat) : Option Nat :=
  (read_tlv_findP buffer t (fun len => len == 2) 0).map
    fun p => fromLE2 (buffer.getD p.1 0) (buffer.getD (p.1 + 1) 0)

/-- `read_tlv_uint64` (protocol.c:311-328). -/
def read_tlv_uint64 (buffer : List Nat) (t : Nat × Nat) : Option Nat :=
  (read_tlv_findP buffer t (fun len => len == 8) 0).map
    fun p => fromLE8 (buffer.getD p.1 0) (buffer.getD (p.1 + 1) 0)
      (buffer.getD (p.1 + 2) 0) (buffer.getD (p.1 + 3) 0)
      (buffer.getD (p.1 + 4) 0) (buffer.getD (p.1 + 5) 0)
      (buffer.getD (p.1 + 6) 0) (buffer.getD (p.1 + 7) 0)

/-- `read_tlv_string` (protocol.c:349-367): the value must be shorter than
the destination capacity `str_size`. -/
def read_tlv_string (buffer : List Nat) (t : Nat × Nat) (str_size : Nat) :
    Option (List Nat) :=
  (read_tlv_findP buffer t (fun len => len < str_size) 0).map
    fun p => (buffer.drop p.1).take p.2

/-- `read_tlv_raw` (protocol.c:369-387): the value must fit the destination
capacity. -/
def read_tlv_raw (buffer : List Nat) (t : Nat × Nat) (cap : Nat) :
    Option (List Nat) :=
  (read_tlv_findP buffer t (fun len => len ≤ cap) 0).map
    fun p => (buffer.drop p.1).take p.2

/-- `write_tlv_uint8` (protocol.c:211-219): `-1` on a too-small buffer is
`none`; the value byte is the `uint8_t` argument. -/
def write_tlv_uint8 (cap : Nat) (t : Nat × Nat) (v : Nat) :
    Option (List Nat) :=
  if cap < 5 then none else some [t.1, t.2, 1, 0, v % 256]

/-- `write_tlv_uint16` (protocol.c:221-229). -/
def write_tlv_uint16 (cap : Nat) (t : Nat × Nat) (v : Nat) :
    Option (List Nat) :=
  if cap < 6 then none else some ([t.1, t.2, 2, 0] ++ toLE2 v)

/-- `write_tlv_uint64` (protocol.c:231-239). -/
def write_tlv_uint64 (cap : Nat) (t : Nat × Nat) (v : Nat) :
    Option (List Nat) :=
  if cap < 12 then none else some ([t.1, t.2, 8, 0] ++ toLE8 v)

/-- `write_tlv_float32` (protocol.c:241-249); the `float` value is carried as
its 4-byte little-endian bit pattern. -/
def write_tlv_float32 (cap : Nat) (t : Nat × Nat) (bits : Nat) :
    Option (List Nat) :=
  if cap < 8 then none else some ([t.1, t.2, 4, 0] ++ toLE4 bits)

/-- `write_tlv_string` (protocol.c:251-259); the string is its byte list
(lengths here are far below the `uint16_t` truncation). -/
def write_tlv_string (cap : Nat) (t : Nat × Nat) (s : List Nat) :
    Option (List Nat) :=
  if cap < 4 + s.length then none
  else some ([t.1, t.2] ++ toLE2 s.length ++ s)

/-- `write_tlv_raw` (protocol.c:261-270). -/
def write_tlv_raw (cap : Nat) (t : Nat × Nat) (d : List Nat) :
    Option (List Nat) :=
  if cap < 4 + d.length then none
  else some ([t.1, t.2] ++ toLE2 d.length ++ d)

/-- `build_packet` (protocol.c:100-154): start marker, then the escaped
packed header (version 2, type, packetId, responseId, dataLength, all
little-endian) + data + CRC32, then the end marker.  The CRC is produced by
the STM32 hardware CRC peripheral via HAL (an external collaborator), hence
the `crcF` parameter (masked to `uint32_t`).  The initial
`output_size < 16 + data_len * 2` reserve check is modelled; the residual
escape-truncation paths it is designed to prevent are unreachable at the
payload sizes exercised here and are not modelled. -/
def build_packet (crcF : List Nat → Nat) (output_size ptype pid rid : Nat)
    (data : List Nat) : Option (List Nat) :=
  if output_size < 16 + data.length * 2 then none
  else
    let header := [0x02, ptype % 256] ++ toLE2 pid ++ toLE2 rid ++
      toLE2 data.length
    let body := header ++ data
    some ([0xAA, 0x55] ++ escape_data (body ++ toLE4 (crcF body % 2 ^ 32)) ++
      [0x55, 0xAA])

/-! ## Command dispatcher (command_handler.c / communication.c) -/

/-- What a command handler reports back: its `int` return value, the bytes it
wrote into `response_data`, and the status it set. -/
structure HandlerOut where
  result : Int
  rdata : List Nat
  status : Nat
  deriving DecidableEq

/-- A device command handler, abstracted over its collaborators (sensor, RTC,
log): the `DA` request bytes determine its output. -/
abbrev Handler := List Nat → HandlerOut

/-- The linear search over `command_table` (command_handler.c:47-53). -/
def lookupCmd : List (List Nat × Handler) → List Nat → Option Handler
  | [], _ => none
  | (name, h) :: rest, instr =>
      if name = instr then some h else lookupCmd rest instr

/-- `process_command_packet` (command_handler.c:33-107): read the `IN`
instruction (capacity 5 ⇒ at most 4 chars), look it up, read the `DA` bytes
(missing ⇒ empty), run the handler — a negative result forces status
`INTERNAL_ERROR = 0xFF` and empty response data — then build the
`IN` + `ST` (+ `DA` only when response data is present) payload and frame it
as a `PKT_TYPE_SLAVE_RESPONSE = 0x11` with the constant packet id `0x8000`
and the caller-supplied `response_id` (the request's packet id, see
`process_received_data`, communication.c:618). -/
def process_command_packet (crcF : List Nat → Nat)
    (table : List (List Nat × Handler)) (packet_data : List Nat)
    (response_id : Nat) : Option (List Nat) :=
  match read_tlv_string packet_data (0x49, 0x4E) 5 with
  | none => none
  | some instr =>
      match lookupCmd table instr with
      | none => none
      | some handler =>
          let request_data :=
            (read_tlv_raw packet_data (0x44, 0x41) MAX_DATA_SIZE).getD []
          let out := handler request_data
          let status := if out.result < 0 then 0xFF else out.status
          let rdata := if out.result < 0 then [] else out.rdata
          match write_tlv_string MAX_DATA_SIZE (0x49, 0x4E) instr with
          | none => none
          | some inB =>
              match write_tlv_uint8 (MAX_DATA_SIZE - inB.length) (0x53, 0x54)
                  status with
              | none => none
              | some stB =>
                  match (if 0 < rdata.length then
                      write_tlv_raw (MAX_DATA_SIZE - inB.length - stB.length)
                        (0x44, 0x41) rdata
                    else some []) with
                  | none => none
                  | some daB =>
                      build_packet crcF MAX_PACKET_SIZE 0x11 0x8000
                        response_id (inB ++ stB ++ daB)

/-- The device-wide packet id counter of communication.c:528, a `uint16_t`
starting at `0x8000`. -/
def PACKET_ID_COUNTER_INIT : Nat := 0x8000

/-- `send_error_response` (communication.c:646-672): builds the `EC`
(+ optional `ED`) error payload and frames it as
`PKT_TYPE_SLAVE_ERROR = 0x1F` using the current counter as packet id,
post-incrementing the counter (as a `uint16_t`) exactly when the payload
writes succeed. -/
def send_error_response (crcF : List Nat → Nat) (counter response_id
    error_code : Nat) (error_desc : List Nat) :
    Option (List Nat) × Nat :=
  match write_tlv_uint8 256 (0x45, 0x43) error_code with
  | none => (none, counter)
  | some ecB =>
      match (if 0 < error_desc.length then
          write_tlv_string (256 - ecB.length) (0x45, 0x44) error_desc
        else some []) with
      | none => (none, counter)
      | some edB =>
          (build_packet crcF MAX_PACKET_SIZE 0x1F counter response_id
            (ecB ++ edB), (counter + 1) % 2 ^ 16)

/-! ## Temperature log ring buffer (buffers.cpp:723-768) -/

def MAX_LOG_ENTRIES : Nat := 100

/-- `g_temp_log` / `g_log_count` / `g_log_write_index` (buffers.cpp:461-464):
100 slots of (timestamp, float32 temperature bits). -/
structure TempLogState where
  slots : List (Nat × Nat)
  count : Nat
  writeIndex : Nat

/-- `temp_log_init` (buffers.cpp:723-729). -/
def temp_log_init : TempLogState :=
  ⟨List.replicate MAX_LOG_ENTRIES (0, 0), 0, 0⟩

/-- `temp_log_add_entry` (buffers.cpp:730-744), with the RTC timestamp passed
in (collaborator). -/
def temp_log_add_entry (st : TempLogState) (timestamp tempBits : Nat) :
    TempLogState :=
  ⟨st.slots.set st.writeIndex (timestamp, tempBits),
   if st.count < MAX_LOG_ENTRIES then st.count + 1 else st.count,
   (st.writeIndex + 1) % MAX_LOG_ENTRIES⟩

/-- `temp_log_get_entries` (buffers.cpp:746-768): walk the ring from the
oldest entry, collecting entries whose timestamp lies in the inclusive
`[start_time, end_time]` range, up to `max_entries` of them. -/
def temp_log_get_entries (st : TempLogState)
    (start_time end_time max_entries : Nat) : List (Nat × Nat) :=
  let read_index := (st.writeIndex + MAX_LOG_ENTRIES - st.count) %
    MAX_LOG_ENTRIES
  (List.range st.count).foldl (fun acc i =>
    if acc.length < max_entries then
      let e := st.slots.getD ((read_index + i) % MAX_LOG_ENTRIES) (0, 0)
      if start_time ≤ e.1 ∧ e.1 ≤ end_time then acc ++ [e] else acc
    else acc) []

/-- The per-entry loop of `handle_get_log` (command_handler.c:423-440): each
item is assembled in a 16-byte `log_item_data` buffer; a failing write
`break`s out of the loop, keeping what was accumulated so far (`acc` is
`log_list_data`). -/
def buildLogList : List (Nat × Nat) → List Nat → List Nat
  | [], acc => acc
  | e :: rest, acc =>
      match write_tlv_uint64 16 (0x54, 0x53) e.1 with
      | none => acc
      | some tsB =>
          match write_tlv_float32 (16 - tsB.length) (0x54, 0x20) e.2 with
          | none => acc
          | some tB =>
              match write_tlv_raw (MAX_DATA_SIZE - acc.length) (0x49, 0x54)
                  (tsB ++ tB) with
              | none => acc
              | some itB => buildLogList rest (acc ++ itB)

/-- `handle_get_log` (command_handler.c:396-453), with the RTC time `now`
passed in (collaborator): read `T1`/`T2`/`MX` (defaults 0/0/100; a zero end
falls back to `now`, a zero start to 24h before the end), query the log,
serialize the items and wrap them in an `LG` TLV. -/
def handle_get_log (now : Nat) (st : TempLogState)
    (request_data : List Nat) : HandlerOut :=
  let start0 := (read_tlv_uint64 request_data (0x54, 0x31)).getD 0
  let end0 := (read_tlv_uint64 request_data (0x54, 0x32)).getD 0
  let max0 := (read_tlv_uint16 request_data (0x4D, 0x58)).getD 100
  let end1 := if end0 = 0 then now else end0
  let start1 := if start0 = 0 then end1 - 24 * 3600 else start0
  let entries := temp_log_get_entries st start1 end1
    (if max0 < 100 then max0 else 100)
  let log_list := buildLogList entries []
  match write_tlv_raw MAX_DATA_SIZE (0x4C, 0x47) log_list with
  | none => ⟨-1, [], 0xFF⟩
  | some lg => ⟨0, lg, 0x00⟩

/-- The `IN "ping"` + empty `DA` payload of `createPingRequest`, as a
reusable value for concrete instances. -/
def pingFields : TLVList :=
  .cons (0x49, 0x4E) (.vStr [0x70, 0x69, 0x6E, 0x67])
    (.cons (0x44, 0x41) (.vArr .nil) .nil)

/-- A handler that succeeds with no response data (the shape of
`handle_ping`), for concrete instances. -/
def constHandlerOK : Handler := fun _ => ⟨0, [], 0x00⟩

/-- A one-entry command table mapping `"ping"`, for concrete instances. -/
def pingTable : List (List Nat × Handler) :=
  [([0x70, 0x69, 0x6E, 0x67], constHandlerOK)]

/-- Request payload bytes holding a single `IN "ping"` TLV, for concrete
instances. -/
def pingRequestTLV : List Nat :=
  [0x49, 0x4E, 0x04, 0x00, 0x70, 0x69, 0x6E, 0x67]

/-- The CRC-covered bytes of the ping frame at packetId 1:
version 02, type 00, packetId 0001, responseId 0000, payloadLen 000C,
then the `IN "ping"` and empty `DA` TLVs. -/
def pingCrcData : List Nat :=
  [0x02, 0x00, 0x01, 0x00, 0x00, 0x00, 0x0C, 0x00,
   0x49, 0x4E, 0x04, 0x00, 0x70, 0x69, 0x6E, 0x67, 0x44, 0x41, 0x00, 0x00]

/-- `calculate_crc32` (protocol.c:8-20) in its in-repository path, taken
when the CRC peripheral is not initialized (`hcrc.Instance == NULL`): the
fallback returns the plain sum of the data bytes as a `uint32_t`.  (With
the peripheral initialized the function instead delegates to
`HAL_CRC_Calculate` over `(length + 3) / 4` 32-bit words of the buffer —
reading up to 3 bytes past the data — with no final xor; that path lives in
the vendor HAL outside this repository and appears in the device model only
as the collaborator parameter `crcF`.) -/
def calculate_crc32_fallback (data : List Nat) : Nat :=
  data.foldl (fun s b => (s + b) % 2 ^ 32) 0

/-- A one-field payload holding the `ST` tag with a u8-compatible value,
for concrete frame instances. -/
def stField (v : Nat) : TLVList := .cons (0x53, 0x54) (.vInt v) .nil

/-! ## Theorems -/

theorem encodeTLV_length (t : Nat × Nat) (v : TLVValue) :
    (encodeTLV t v).length = 4 + (encodeValue v).length := by
  simp [encodeTLV, toLE2]
  omega

theorem encodeTLVList_cons (t : Nat × Nat) (v : TLVValue) (rest : TLVList) :
    encodeTLVList (.cons t v rest) = encodeTLV t v ++ encodeTLVList rest := by
  simp [encodeTLVList, encodeTLV]

theorem encodeValue_length_le (t : Nat × Nat) (v : TLVValue)
    (h : WFValue t v) : (encodeValue v).length ≤ 0xFFFF := by
  cases v with
  | vInt n =>
      simp only [encodeValue]
      repeat' split
      all_goals simp [toLE2, toLE4, toLE8]
  | vF32 b => simp [encodeValue, toLE4]
  | vStr s => exact h.2.2
  | vArr items => exact h.2.2

/-! ## TLV round trip -/

theorem getD_prefix_read (pre enc rest : List Nat) (k d : Nat)
    (h : k < enc.length) :
    (pre ++ enc ++ rest).getD (pre.length + k) d = enc.getD k d := by
  rw [List.append_assoc, List.getD_append_right _ _ _ _ (by omega),
    Nat.add_sub_cancel_left, List.getD_append _ _ _ _ h]

theorem drop_take_concat (front mid rest : List Nat) (n k : Nat)
    (hn : n = front.length) (hk : k = mid.length) :
    ((front ++ (mid ++ rest)).drop n).take k = mid := by
  subst hn hk
  rw [List.drop_left, List.take_left]

theorem fromLE2_toLE2 (n : Nat) (h : n ≤ 0xFFFF) :
    fromLE2 (n % 256) (n / 256 % 256) = n := by
  simp only [fromLE2]
  omega

theorem fromLE4_toLE4 (n : Nat) (h : n < 2 ^ 32) :
    fromLE4 (n % 256) (n / 2 ^ 8 % 256) (n / 2 ^ 16 % 256)
      (n / 2 ^ 24 % 256) = n := by
  simp only [fromLE4]
  omega

theorem fromLE8_toLE8 (n : Nat) (h : n < 2 ^ 64) :
    fromLE8 (n % 256) (n / 2 ^ 8 % 256) (n / 2 ^ 16 % 256) (n / 2 ^ 24 % 256)
      (n / 2 ^ 32 % 256) (n / 2 ^ 40 % 256) (n / 2 ^ 48 % 256)
      (n / 2 ^ 56 % 256) = n := by
  simp only [fromLE8]
  omega

mutual

/-- Round trip of a single well-formed TLV field placed at an arbitrary
position of a larger buffer. -/
theorem decodeTLV_encodeTLV (t : Nat × Nat) (v : TLVValue)
    (pre rest : List Nat) (hwf : WFValue t v) :
    decodeTLV (pre ++ encodeTLV t v ++ rest) pre.length =
      some (t, v, pre.length + (encodeTLV t v).length) := by
  obtain ⟨ta, tb⟩ := t
  have hevl : (encodeValue v).length ≤ 0xFFFF :=
    encodeValue_length_le (ta, tb) v hwf
  have hblen : (pre ++ encodeTLV (ta, tb) v ++ rest).length =
      pre.length + (4 + (encodeValue v).length) + rest.length := by
    simp [encodeTLV, toLE2]
    omega
  have h0 : (pre ++ encodeTLV (ta, tb) v ++ rest).getD pre.length 0 = ta := by
    have h := getD_prefix_read pre (encodeTLV (ta, tb) v) rest 0 0
      (by simp [encodeTLV, toLE2])
    simpa [encodeTLV] using h
  have h1 : (pre ++ encodeTLV (ta, tb) v ++ rest).getD (pre.length + 1) 0 =
      tb := by
    have h := getD_prefix_read pre (encodeTLV (ta, tb) v) rest 1 0
      (by simp [encodeTLV, toLE2])
    simpa [encodeTLV] using h
  have h2 : (pre ++ encodeTLV (ta, tb) v ++ rest).getD (pre.length + 2) 0 =
      (encodeValue v).length % 256 := by
    have h := getD_prefix_read pre (encodeTLV (ta, tb) v) rest 2 0
      (by simp [encodeTLV, toLE2])
    simpa [encodeTLV, toLE2] using h
  have h3 : (pre ++ encodeTLV (ta, tb) v ++ rest).getD (pre.length + 3) 0 =
      (encodeValue v).length / 256 % 256 := by
    have h := getD_prefix_read pre (encodeTLV (ta, tb) v) rest 3 0
      (by simp [encodeTLV, toLE2])
    simpa [encodeTLV, toLE2] using h
  have hvb : ((pre ++ encodeTLV (ta, tb) v ++ rest).drop
      (pre.length + 4)).take (encodeValue v).length = encodeValue v := by
    have hsplit : pre ++ encodeTLV (ta, tb) v ++ rest =
        (pre ++ [ta, tb] ++ toLE2 (encodeValue v).length) ++
          (encodeValue v ++ rest) := by
      simp [encodeTLV]
    rw [hsplit]
    exact drop_take_concat _ _ _ _ _ (by simp [toLE2]) rfl
  rw [decodeTLV]
  rw [dif_pos (by omega)]
  simp only [h0, h1, h2, h3, fromLE2_toLE2 _ hevl]
  rw [dif_pos (by omega)]
  simp only [hvb]
  cases v with
  | vInt n =>
      have hwf' : (match tagKind (ta, tb) with
          | TagKind.kU8 => n ≤ 0xFF
          | TagKind.kU16 => 0xFF < n ∧ n ≤ 0xFFFF
          | TagKind.kU64 => 0xFFFFFFFF < n ∧ n < 2 ^ 53
          | _ => False) := hwf
      cases htk : tagKind (ta, tb) with
      | kU8 =>
          rw [htk] at hwf'
          have hn : n ≤ 0xFF := hwf'
          have hev : encodeValue (.vInt n) = [n] := by
            simp [encodeValue, hn]
          simp [hev, encodeTLV_length]
      | kU16 =>
          rw [htk] at hwf'
          have hn : 0xFF < n ∧ n ≤ 0xFFFF := hwf'
          have ha : ¬ n ≤ 0xFF := by omega
          have hb' : n ≤ 0xFFFF := hn.2
          have hev : encodeValue (.vInt n) = [n % 256, n / 256 % 256] := by
            simp [encodeValue, toLE2, ha, hb']
          simp [hev, encodeTLV_length]
          exact fromLE2_toLE2 n hn.2
      | kU64 =>
          rw [htk] at hwf'
          have hn : 0xFFFFFFFF < n ∧ n < 2 ^ 53 := hwf'
          have ha : ¬ n ≤ 0xFF := by omega
          have hb' : ¬ n ≤ 0xFFFF := by omega
          have hc' : ¬ n ≤ 0xFFFFFFFF := by omega
          have hev : encodeValue (.vInt n) = toLE8 n := by
            simp [encodeValue, ha, hb', hc']
          simp [hev, encodeTLV_length, toLE8]
          exact fromLE8_toLE8 n (by omega)
      | kF32 => rw [htk] at hwf'; exact hwf'.elim
      | kStr => rw [htk] at hwf'; exact hwf'.elim
      | kNested => rw [htk] at hwf'; exact hwf'.elim
  | vF32 b =>
      obtain ⟨hk, hb⟩ := hwf
      rw [hk]
      simp [encodeValue, toLE4, encodeTLV_length]
      simpa [fromLE4] using fromLE4_toLE4 b hb
  | vStr s =>
      obtain ⟨hk, hbytes, hslen⟩ := hwf
      rw [hk]
      simp [encodeValue, encodeTLV_length]
      omega
  | vArr items =>
      obtain ⟨hk, hwfl, hlenle⟩ := hwf
      rw [hk]
      have hrec : decodeTLVList (encodeTLVList items) 0 = some items := by
        have h := decodeTLVList_encodeTLVList items [] hwfl
        simpa using h
      simp only [encodeValue] at hvb ⊢
      simp [hrec, encodeTLV_length, encodeValue]
      omega

/-- Round trip of a well-formed TLV field sequence occupying the tail of the
buffer. -/
theorem decodeTLVList_encodeTLVList (l : TLVList) (pre : List Nat)
    (hwf : WFList l) :
    decodeTLVList (pre ++ encodeTLVList l) pre.length = some l := by
  cases l with
  | nil =>
      rw [decodeTLVList]
      simp [encodeTLVList]
  | cons t v rest =>
      obtain ⟨hta, htb, hwfv, hwfr⟩ := hwf
      have henc : (4 : Nat) ≤ (encodeTLV t v).length := by
        rw [encodeTLV_length]
        omega
      have hd : decodeTLV (pre ++ encodeTLVList (.cons t v rest))
          pre.length = some (t, v, pre.length + (encodeTLV t v).length) := by
        have h := decodeTLV_encodeTLV t v pre (encodeTLVList rest) hwfv
        rw [encodeTLVList_cons]
        simpa [List.append_assoc] using h
      have hr : decodeTLVList (pre ++ encodeTLVList (.cons t v rest))
          (pre.length + (encodeTLV t v).length) = some rest := by
        have h := decodeTLVList_encodeTLVList rest (pre ++ encodeTLV t v) hwfr
        rw [encodeTLVList_cons, ← List.append_assoc]
        simpa using h
      rw [decodeTLVList]
      rw [if_pos (by
        simp only [encodeTLVList_cons, List.length_append, encodeTLV_length]
        omega)]
      have hlt : pre.length < pre.length + (encodeTLV t v).length := by omega
      simp [hd, hlt, hr]

end

/-! ### The table-driven CRC equals the bitwise definition -/

theorem xor_shiftLeft_distrib (x y n : Nat) :
    (x ^^^ y) <<< n = (x <<< n) ^^^ (y <<< n) := by
  apply Nat.eq_of_testBit_eq
  intro i
  simp only [Nat.testBit_shiftLeft, Nat.testBit_xor]
  cases h : decide (n ≤ i) <;> simp

theorem xor_mod_two_pow_distrib (x y n : Nat) :
    (x ^^^ y) % 2 ^ n = x % 2 ^ n ^^^ y % 2 ^ n := by
  apply Nat.eq_of_testBit_eq
  intro i
  simp only [Nat.testBit_mod_two_pow, Nat.testBit_xor]
  cases h : decide (i < n) <;> simp

theorem xor_xor_shuffle (a b p q : Nat) :
    (a ^^^ p) ^^^ (b ^^^ q) = (a ^^^ b) ^^^ (p ^^^ q) := by
  rw [Nat.xor_assoc, ← Nat.xor_assoc p b q, Nat.xor_comm p b,
    Nat.xor_assoc b p q, ← Nat.xor_assoc]

theorem crcShift_eq (c : Nat) : crcShift c =
    ((c <<< 1) ^^^ (if c.testBit 31 then 0x04C11DB7 else 0)) % 2 ^ 32 := by
  unfold crcShift
  by_cases h : c.testBit 31 <;> simp [h]

theorem crcShift_xor (x y : Nat) :
    crcShift (x ^^^ y) = crcShift x ^^^ crcShift y := by
  rw [crcShift_eq, crcShift_eq, crcShift_eq, Nat.testBit_xor,
    xor_shiftLeft_distrib, ← xor_mod_two_pow_distrib]
  congr 1
  cases hx : x.testBit 31 <;> cases hy : y.testBit 31 <;> simp [hx, hy]
  · rw [Nat.xor_assoc]
  · rw [Nat.xor_assoc, Nat.xor_comm (y <<< 1) 0x04C11DB7, ← Nat.xor_assoc]
  · rw [xor_xor_shuffle, Nat.xor_self, Nat.xor_zero]

theorem crcShift_iterate_xor (k x y : Nat) :
    crcShift^[k] (x ^^^ y) = crcShift^[k] x ^^^ crcShift^[k] y := by
  induction k generalizing x y with
  | zero => rfl
  | succ k ih =>
      rw [Function.iterate_succ_apply, Function.iterate_succ_apply,
        Function.iterate_succ_apply, crcShift_xor, ih]

theorem crcShift_lt (c : Nat) : crcShift c < 2 ^ 32 := by
  unfold crcShift
  split <;> exact Nat.mod_lt _ (by norm_num)

theorem crcShift_iterate_small (k : Nat) : ∀ l, l * 2 ^ k < 2 ^ 32 →
    crcShift^[k] l = l * 2 ^ k := by
  induction k with
  | zero => intro l _; simp
  | succ k ih =>
      intro l h
      have h2k : (2 : Nat) ≤ 2 ^ (k + 1) := by
        calc (2 : Nat) = 2 ^ 1 := rfl
        _ ≤ 2 ^ (k + 1) := Nat.pow_le_pow_right (by norm_num) (by omega)
      have hl2 : l * 2 ≤ l * 2 ^ (k + 1) := Nat.mul_le_mul_left l h2k
      have hl31 : l.testBit 31 = false := by
        apply Nat.testBit_lt_two_pow
        omega
      have hstep : crcShift l = l * 2 := by
        unfold crcShift
        rw [hl31]
        simp only [Bool.false_eq_true, if_false, Nat.shiftLeft_eq, pow_one]
        exact Nat.mod_eq_of_lt (by omega)
      rw [Function.iterate_succ_apply, hstep, ih (l * 2) (by
        rw [Nat.mul_assoc, ← Nat.pow_succ']
        exact h)]
      rw [Nat.mul_assoc, ← Nat.pow_succ']

theorem crc_split_bits (c : Nat) :
    c = ((c >>> 24) <<< 24) ^^^ (c % 2 ^ 24) := by
  apply Nat.eq_of_testBit_eq
  intro i
  simp only [Nat.testBit_xor, Nat.testBit_shiftLeft, Nat.testBit_shiftRight,
    Nat.testBit_mod_two_pow]
  by_cases h24 : 24 ≤ i
  · rw [Nat.add_sub_cancel' h24]
    simp [h24, Nat.lt_of_lt_of_le, show ¬ i < 24 by omega]
  · simp [h24, show i < 24 by omega]

theorem crcByteStep_spec (crc b : Nat) (hc : crc < 2 ^ 32) (hb : b < 256) :
    crcByteStep crc b = crcShift^[8] (crc ^^^ (b <<< 24)) := by
  have hhi : crc >>> 24 < 256 := by
    rw [Nat.shiftRight_eq_div_pow]
    omega
  have hidx : ((crc >>> 24) ^^^ b) % 256 = (crc >>> 24) ^^^ b :=
    Nat.mod_eq_of_lt (Nat.xor_lt_two_pow (n := 8) hhi hb)
  have hsplit : crc ^^^ (b <<< 24) =
      (((crc >>> 24) ^^^ b) <<< 24) ^^^ (crc % 2 ^ 24) := by
    conv_lhs => rw [crc_split_bits crc]
    rw [xor_shiftLeft_distrib]
    rw [Nat.xor_assoc, Nat.xor_comm (crc % 2 ^ 24), ← Nat.xor_assoc]
  have hlow : crcShift^[8] (crc % 2 ^ 24) = (crc % 2 ^ 24) * 2 ^ 8 :=
    crcShift_iterate_small 8 (crc % 2 ^ 24) (by omega)
  have hshift : (crc <<< 8) % 2 ^ 32 = (crc % 2 ^ 24) * 2 ^ 8 := by
    rw [Nat.shiftLeft_eq]
    omega
  rw [hsplit, crcShift_iterate_xor]
  unfold crcByteStep crcTable
  rw [hidx, hlow, hshift, Nat.xor_comm]

theorem foldl_crc_eq (data : List Nat) : ∀ crc, crc < 2 ^ 32 → BytesOK data →
    data.foldl crcByteStep crc =
      data.foldl (fun crc b => crcShift^[8] (crc ^^^ (b <<< 24))) crc := by
  induction data with
  | nil => intro crc _ _; rfl
  | cons b rest ih =>
      intro crc hc hbytes
      have hb : b < 256 := hbytes b (by simp)
      have hrest : BytesOK rest := fun x hx => hbytes x (by simp [hx])
      simp only [List.foldl_cons]
      rw [crcByteStep_spec crc b hc hb]
      apply ih
      · rw [Function.iterate_succ_apply']
        exact crcShift_lt _
      · exact hrest

/-- The table-driven CRC loop computes exactly the bitwise MSB-first CRC32
of the spec on byte-valid data. -/
theorem crc32u_eq_bitwise (data : List Nat) (h : BytesOK data) :
    crc32u data = crc32_bitwise data := by
  unfold crc32u crc32_bitwise
  rw [foldl_crc_eq data 0xFFFFFFFF (by norm_num) h]

theorem unescape_escape (b : List Nat) :
    unescape_data (escape_data b) = some b := by
  induction b with
  | nil => rfl
  | cons x rest ih =>
      by_cases hx : x = 0xAA ∨ x = 0x55
      · rw [show escape_data (x :: rest) = x :: 0x00 :: escape_data rest from
          by rw [escape_data, if_pos hx]]
        rw [unescape_data, if_pos ⟨hx, rfl⟩, ih]
        rfl
      · rw [show escape_data (x :: rest) = x :: escape_data rest from
          by rw [escape_data, if_neg hx]]
        cases rest with
        | nil => rfl
        | cons y rest' =>
            have hy : ∃ t, escape_data (y :: rest') = y :: t := by
              rw [escape_data]
              split
              · exact ⟨_, rfl⟩
              · exact ⟨_, rfl⟩
            obtain ⟨t, ht⟩ := hy
            rw [ht]
            rw [unescape_data, if_neg (by tauto), if_neg (by tauto), ← ht, ih]
            rfl

theorem escape_no_marker (b : List Nat) :
    ∀ i, ¬ hasMarkerPairAt (escape_data b) i := by
  induction b with
  | nil => intro i h; rcases h with ⟨h1, _⟩ | ⟨h1, _⟩ <;> simp [escape_data] at h1
  | cons x rest ih =>
      intro i
      by_cases hx : x = 0xAA ∨ x = 0x55
      · rw [show escape_data (x :: rest) = x :: 0x00 :: escape_data rest from
          by rw [escape_data, if_pos hx]]
        match i with
        | 0 => intro h; rcases h with ⟨_, h2⟩ | ⟨_, h2⟩ <;> simp at h2
        | 1 => intro h; rcases h with ⟨h1, _⟩ | ⟨h1, _⟩ <;> simp at h1
        | i + 2 =>
            intro h
            apply ih i
            rcases h with ⟨h1, h2⟩ | ⟨h1, h2⟩ <;>
              simp only [List.getD_cons_succ] at h1 h2
            · exact Or.inl ⟨h1, h2⟩
            · exact Or.inr ⟨h1, h2⟩
      · rw [show escape_data (x :: rest) = x :: escape_data rest from
          by rw [escape_data, if_neg hx]]
        match i with
        | 0 =>
            intro h
            rcases h with ⟨h1, _⟩ | ⟨h1, _⟩ <;> simp at h1 <;> tauto
        | i + 1 =>
            intro h
            apply ih i
            rcases h with ⟨h1, h2⟩ | ⟨h1, h2⟩ <;>
              simp only [List.getD_cons_succ] at h1 h2
            · exact Or.inl ⟨h1, h2⟩
            · exact Or.inr ⟨h1, h2⟩

theorem escape_eq_flatten (b : List Nat) :
    escape_data b = (b.map fun x =>
      if x = 0xAA ∨ x = 0x55 then [x, 0x00] else [x]).flatten := by
  induction b with
  | nil => rfl
  | cons x rest ih =>
      by_cases hx : x = 0xAA ∨ x = 0x55 <;> simp [escape_data, hx, ih]

theorem findStart_none (l : List Nat) (h : ∀ i, ¬ hasStartPairAt l i) :
    findStart l = none := by
  induction l with
  | nil => rfl
  | cons a rest ih =>
      cases rest with
      | nil => rfl
      | cons b rest' =>
          rw [findStart]
          rw [if_neg (by
            intro hab
            exact h 0 ⟨by simp [hab.1], by simp [hab.2]⟩)]
          rw [ih (by
            intro i hi
            exact h (i + 1) ⟨by simpa using hi.1, by simpa using hi.2⟩)]
          rfl

theorem mapGet_mapSet (m : List (String × Nat)) (k : String) (v : Nat) :
    mapGet (mapSet m k v) k = some v := by
  induction m with
  | nil => simp [mapSet, mapGet]
  | cons p rest ih =>
      obtain ⟨k', v'⟩ := p
      by_cases h : k' = k <;> simp [mapSet, mapGet, h, ih]

theorem mapSet_keys_of_mem (m : List (String × Nat)) (k : String) (v : Nat)
    (h : k ∈ m.map Prod.fst) :
    (mapSet m k v).map Prod.fst = m.map Prod.fst := by
  induction m with
  | nil => simp at h
  | cons p rest ih =>
      obtain ⟨k', v'⟩ := p
      by_cases hk : k' = k
      · simp [mapSet, hk]
      · have hmem : k ∈ rest.map Prod.fst := by
          simp only [List.map_cons, List.mem_cons] at h
          rcases h with h | h
          · exact absurd h.symm hk
          · exact h
        simp [mapSet, hk, ih hmem]

theorem mapGet_mem_keys (m : List (String × Nat)) (k : String) (v : Nat)
    (h : mapGet m k = some v) : k ∈ m.map Prod.fst := by
  induction m with
  | nil => simp [mapGet] at h
  | cons p rest ih =>
      obtain ⟨k', v'⟩ := p
      by_cases hk : k' = k
      · simp [hk]
      · simp [mapGet, hk] at h
        simp [ih h]

/-! ## Auxiliary lemmas for the claim theorems -/

theorem crcTable_lt (i : Nat) : crcTable i < 2 ^ 32 := by
  unfold crcTable
  rw [show (8 : Nat) = 7 + 1 from rfl, Function.iterate_succ_apply']
  exact crcShift_lt _

theorem crcByteStep_lt (crc b : Nat) : crcByteStep crc b < 2 ^ 32 :=
  Nat.xor_lt_two_pow (Nat.mod_lt _ (by norm_num)) (crcTable_lt _)

theorem foldl_crcByteStep_lt (data : List Nat) :
    ∀ crc, crc < 2 ^ 32 → data.foldl crcByteStep crc < 2 ^ 32 := by
  induction data with
  | nil => intro crc h; exact h
  | cons b rest ih =>
      intro crc _
      exact ih _ (crcByteStep_lt crc b)

theorem crc32u_lt (data : List Nat) : crc32u data < 2 ^ 32 :=
  Nat.xor_lt_two_pow (foldl_crcByteStep_lt data _ (by norm_num)) (by norm_num)

/-- `setUint32` stores the unsigned CRC: `ToUint32` undoes the signed
reading, so the frame bytes placed hold `crc32u`. -/
theorem toUint32_calc (data : List Nat) :
    toUint32 (calculateCRC32 data) = crc32u data := by
  have h := crc32u_lt data
  unfold toUint32 calculateCRC32 toInt32
  rw [Nat.mod_eq_of_lt h]
  split <;> omega

/-- The decoder's comparison of the signed CRC against the unsigned stored
field succeeds exactly when bit 31 of the CRC is clear. -/
theorem calc_check_iff (data : List Nat) :
    (calculateCRC32 data = (crc32u data : Int)) ↔ crc32u data < 2 ^ 31 := by
  have h := crc32u_lt data
  unfold calculateCRC32 toInt32
  rw [Nat.mod_eq_of_lt h]
  split <;> omega

theorem read_tlv_findP_ok (buffer : List Nat) (t : Nat × Nat)
    (ok : Nat → Bool) : ∀ i p, read_tlv_findP buffer t ok i = some p →
    ok p.2 = true := by
  intro i
  generalize hm : buffer.length - i = m
  induction m using Nat.strong_induction_on generalizing i with
  | _ m ih =>
      intro p hp
      rw [read_tlv_findP] at hp
      split at hp
      · split at hp
        next hcond =>
          cases hp
          exact hcond.2.2.1
        next =>
          next hguard _ =>
            exact ih (buffer.length -
              (i + 4 + fromLE2 (buffer.getD (i + 2) 0) (buffer.getD (i + 3) 0)))
              (by omega) _ rfl p hp
      · exact Option.noConfusion hp

theorem read_tlv_string_length (buffer : List Nat) (t : Nat × Nat)
    (cap : Nat) (s : List Nat) (h : read_tlv_string buffer t cap = some s) :
    s.length < cap := by
  unfold read_tlv_string at h
  cases hf : read_tlv_findP buffer t (fun len => len < cap) 0 with
  | none => rw [hf] at h; simp at h
  | some p =>
      rw [hf] at h
      have h2 : some ((buffer.drop p.1).take p.2) = some s := h
      have hok : (p.2 : Nat) < cap := by
        have := read_tlv_findP_ok buffer t (fun len => len < cap) 0 p hf
        simpa using this
      have hlen : s.length ≤ p.2 := by
        cases h2
        exact List.length_take_le _ _
      omega

theorem no_start_of_no_AA (g : List Nat) (h : 0xAA ∉ g) :
    ∀ i, ¬ hasStartPairAt g i := by
  intro i hp
  rcases Nat.lt_or_ge i g.length with hi | hi
  · apply h
    rw [← hp.1, List.getD_eq_getElem g 0 hi]
    exact List.getElem_mem hi
  · have : g.getD i 0 = 0 := List.getD_eq_default g 0 hi
    rw [hp.1] at this
    simp at this

theorem counter_iterate_from_8000 (n : Nat) (hn : n < 0x8000) :
    (fun c => (c + 1) % 2 ^ 16)^[n] PACKET_ID_COUNTER_INIT = 0x8000 + n := by
  induction n with
  | zero => rfl
  | succ m ih =>
      rw [Function.iterate_succ_apply', ih (by omega)]
      show (0x8000 + m + 1) % 2 ^ 16 = 0x8000 + (m + 1)
      omega

theorem getD_skip2 (l1 l2 rest : List Nat) (j k d : Nat)
    (hj : j = l1.length + l2.length + k) :
    (l1 ++ (l2 ++ rest)).getD j d = rest.getD k d := by
  subst hj
  rw [← List.append_assoc]
  rw [List.getD_append_right _ _ _ _ (by simp)]
  congr 1
  simp only [List.length_append]
  omega

/-! ## Claim theorems -/

/-- C1, counterexample: sending `temp` twice before the first request
settles.  The second `sendRequest` registration does NOT fail — the code has
no `RequestAlreadyInFlight` error at all — and it replaces the tracked first
request: afterwards the table maps `temp` to request 2, request 1 is no
longer tracked, and no promise was resolved or rejected by the call. -/
theorem C1_counterexample :
    (sendRequestRegister (sendRequestRegister [] "temp" 1).1 "temp" 2).1 =
      [("temp", 2)] ∧
    (sendRequestRegister (sendRequestRegister [] "temp" 1).1 "temp" 2).2 =
      [] ∧
    mapGet (sendRequestRegister
      (sendRequestRegister [] "temp" 1).1 "temp" 2).1 "temp" ≠ some 1 := by
  refine ⟨by decide, rfl, by decide⟩

/-- C1, amended: while a request for a command is pending, a second
`sendRequest` for the same command does not fail and is not queued — it
silently overwrites the pending-request entry with the new request (the
first request is no longer tracked and is neither resolved nor rejected by
the call; only its still-armed timer can settle it later).  The map keeps at
most one entry per command key throughout (its key set is unchanged). -/
theorem C1_second_send_silently_replaces (pending : List (String × Nat))
    (command : String) (id1 id2 : Nat)
    (h : mapGet pending command = some id1) :
    mapGet (sendRequestRegister pending command id2).1 command = some id2 ∧
    (sendRequestRegister pending command id2).2 = [] ∧
    ((sendRequestRegister pending command id2).1).map Prod.fst =
      pending.map Prod.fst :=
  ⟨mapGet_mapSet pending command id2, rfl,
    mapSet_keys_of_mem pending command id2
      (mapGet_mem_keys pending command id1 h)⟩

/-- C1, witness for the amended theorem at a concrete state. -/
theorem C1_witness :
    mapGet (sendRequestRegister [("temp", 1)] "temp" 2).1 "temp" = some 2 ∧
    (sendRequestRegister [("temp", 1)] "temp" 2).2 = [] ∧
    ((sendRequestRegister [("temp", 1)] "temp" 2).1).map Prod.fst =
      [("temp", 1)].map Prod.fst :=
  C1_second_send_silently_replaces [("temp", 1)] "temp" 1 2 (by decide)

/-- C3, counterexample: the tag `ST` decodes as a u8, but `encodeTLV` picks
the width from the value, so the u16 integer 256 under tag `ST` encodes as
two bytes and decodes back as the first byte only: the round trip returns
value 0, not 256. -/
theorem C3_counterexample :
    decodeTLV (encodeTLV (0x53, 0x54) (.vInt 256)) 0 =
      some ((0x53, 0x54), .vInt 0, 6) ∧ (0 : Nat) ≠ 256 := by
  refine ⟨?_, by decide⟩
  simp [decodeTLV, decodeTLVList, encodeTLV, encodeValue, toLE2, fromLE2,
    tagKind]

/-- C3, amended: `decodeTLV ∘ encodeTLV` is the identity exactly when the
value's encoded representation matches the tag's decode class (`WFValue`):
strings under string-class tags, u8-width integers (≤ 0xFF) under u8 tags,
u16-width integers under `MX`, integers above 2^32 (and below 2^53, where JS
numbers are exact) under u64 tags, float32 bit patterns under float tags,
and well-formed nested arrays under nested tags; no tag decodes the u32
width, and width-mismatched pairs (such as `ST` with 256) do not round-trip. -/
theorem C3_tlv_roundtrip (t : Nat × Nat) (v : TLVValue) (h : WFValue t v) :
    decodeTLV (encodeTLV t v) 0 = some (t, v, (encodeTLV t v).length) := by
  have h0 := decodeTLV_encodeTLV t v [] [] h
  simpa using h0

/-- C3, witness: the `IN`/`"ping"` field round-trips. -/
theorem C3_witness :
    decodeTLV (encodeTLV (0x49, 0x4E) (.vStr [0x70, 0x69, 0x6E, 0x67])) 0 =
      some ((0x49, 0x4E), .vStr [0x70, 0x69, 0x6E, 0x67],
        (encodeTLV (0x49, 0x4E) (.vStr [0x70, 0x69, 0x6E, 0x67])).length) :=
  C3_tlv_roundtrip (0x49, 0x4E) (.vStr [0x70, 0x69, 0x6E, 0x67])
    ⟨by decide, by unfold BytesOK; decide, by decide⟩

/-- C6: `escape_data` maps each `0xAA`/`0x55` byte to the byte followed by
the stuffing byte `0x00` and passes every other byte through unchanged;
`unescape_data` inverts it exactly; and the escaped output contains no
`AA 55` or `55 AA` marker pair at any position. -/
theorem C6_escape_reversible (b : List Nat) :
    escape_data b = (b.map fun x =>
      if x = 0xAA ∨ x = 0x55 then [x, 0x00] else [x]).flatten ∧
    unescape_data (escape_data b) = some b ∧
    ∀ i, ¬ hasMarkerPairAt (escape_data b) i :=
  ⟨escape_eq_flatten b, unescape_escape b, escape_no_marker b⟩

/-- C7, counterexample: a single garbage byte (no start marker) is NOT
drained — `tryParsePackets` returns before scanning whenever fewer than 16
bytes are buffered, so the byte stays in the receive buffer (though no frame
is delivered). -/
theorem C7_counterexample :
    (∀ i, ¬ hasStartPairAt [0] i) ∧ tryParsePackets [0] = ([0], []) := by
  constructor
  · exact no_start_of_no_AA [0] (by decide)
  · rw [tryParsePackets]
    decide

/-- C7, amended: feeding marker-free garbage to the reassembler delivers no
frame; the buffer is fully drained when it holds at least 16 bytes (the
minimum frame size), while a shorter marker-free buffer is retained to wait
for more data. -/
theorem C7_garbage_drained (g : List Nat)
    (h : ∀ i, ¬ hasStartPairAt g i) :
    (16 ≤ g.length → tryParsePackets g = ([], [])) ∧
    (g.length < 16 → tryParsePackets g = (g, [])) ∧
    (tryParsePackets g).2 = [] := by
  have hfs := findStart_none g h
  by_cases hl : g.length < 16
  · have ht : tryParsePackets g = (g, []) := by
      rw [tryParsePackets, if_pos hl]
    exact ⟨fun h16 => absurd h16 (by omega), fun _ => ht, by rw [ht]⟩
  · have ht : tryParsePackets g = ([], []) := by
      rw [tryParsePackets, if_neg hl, hfs]
    exact ⟨fun _ => ht, fun hlt => absurd hlt hl, by rw [ht]⟩

set_option maxRecDepth 8000 in
/-- C2: encoding a ping request when the counter assigns packetId 1 produces
a v2 frame of exactly 28 bytes (not the claimed 18),
`AA 55 02 00 01 00 00 00 0C 00 [IN 04 00 "ping"] [DA 00 00] <crc32:4> 55 AA`
with payload-length field 0x000C (not 0x0006); and decoding that very frame
back does not return the claimed fields: the frame's correct CRC has bit 31
set, so `calculateCRC32` returns it as a negative signed int32 while the
stored field reads back unsigned, the decoder's comparison fails, and
`decodePacket` throws `CRC32 mismatch` (`none`) on the encoder's own
output. -/
theorem C2_ping_frame_rejected :
    (createPingRequest 0).1 =
      [0xAA, 0x55, 0x02, 0x00, 0x01, 0x00, 0x00, 0x00, 0x0C, 0x00,
       0x49, 0x4E, 0x04, 0x00, 0x70, 0x69, 0x6E, 0x67,
       0x44, 0x41, 0x00, 0x00] ++ toLE4 (crc32u pingCrcData) ++
      [0x55, 0xAA] ∧
    (createPingRequest 0).1.length = 28 ∧
    (createPingRequest 0).2 = 1 ∧
    2 ^ 31 ≤ crc32u pingCrcData ∧
    calculateCRC32 pingCrcData < 0 ∧
    decodePacket (createPingRequest 0).1 = none := by
  refine ⟨by decide, by decide, by decide, by decide, by decide, ?_⟩
  simp [createPingRequest, encodePacket, decodePacket, decodeTLVList,
    decodeTLV, encodeTLVList, encodeValue, toLE2, toLE4, fromLE2, fromLE4,
    tagKind, calculateCRC32, crc32u, toInt32, toUint32]
  decide

/-- `decodePacket` applied to `encodePacket` output, for tag/value
compatible payloads whose encoding fits the u16 length field: the frame
parses back to the original fields exactly when the signed-against-unsigned
CRC comparison passes, i.e. when bit 31 of the frame's CRC is clear. -/
theorem decode_encode_crc (counter ptype rid : Nat) (fields : TLVList)
    (hwf : WFList fields) (hlen : (encodeTLVList fields).length ≤ 0xFFFF)
    (hp : ptype < 256) (hr : rid < 2 ^ 16) :
    decodePacket (encodePacket counter ptype fields rid).1 =
      if crc32u ([0x02, ptype % 256] ++ toLE2 ((counter + 1) % 128) ++
          toLE2 rid ++ toLE2 (encodeTLVList fields).length ++
          encodeTLVList fields) < 2 ^ 31 then
        some ⟨2, ptype, (counter + 1) % 128, rid, fields⟩
      else none := by
  have hframe : (encodePacket counter ptype fields rid).1 =
      [0xAA, 0x55, 0x02, ptype % 256, ((counter + 1) % 128) % 256,
        ((counter + 1) % 128) / 256 % 256, rid % 256, rid / 256 % 256,
        (encodeTLVList fields).length % 256,
        (encodeTLVList fields).length / 256 % 256] ++
      (encodeTLVList fields ++
        (toLE4 (crc32u ([0x02, ptype % 256] ++
          toLE2 ((counter + 1) % 128) ++ toLE2 rid ++
          toLE2 (encodeTLVList fields).length ++ encodeTLVList fields)) ++
          [0x55, 0xAA])) := by
    simp [encodePacket, toLE2, toUint32_calc]
  have hL : (encodePacket counter ptype fields rid).1.length =
      16 + (encodeTLVList fields).length := by
    rw [hframe]
    simp [toLE4]
    omega
  have h0 : (encodePacket counter ptype fields rid).1.getD 0 0 = 0xAA := by
    rw [hframe]; rfl
  have h1 : (encodePacket counter ptype fields rid).1.getD 1 0 = 0x55 := by
    rw [hframe]; rfl
  have h2 : (encodePacket counter ptype fields rid).1.getD 2 0 = 0x02 := by
    rw [hframe]; rfl
  have h3 : (encodePacket counter ptype fields rid).1.getD 3 0 =
      ptype % 256 := by
    rw [hframe]; rfl
  have h45 : fromLE2 ((encodePacket counter ptype fields rid).1.getD 4 0)
      ((encodePacket counter ptype fields rid).1.getD 5 0) =
      (counter + 1) % 128 := by
    rw [hframe]
    show fromLE2 (((counter + 1) % 128) % 256)
      (((counter + 1) % 128) / 256 % 256) = (counter + 1) % 128
    exact fromLE2_toLE2 _ (by omega)
  have h67 : fromLE2 ((encodePacket counter ptype fields rid).1.getD 6 0)
      ((encodePacket counter ptype fields rid).1.getD 7 0) = rid := by
    rw [hframe]
    show fromLE2 (rid % 256) (rid / 256 % 256) = rid
    exact fromLE2_toLE2 _ (by omega)
  have h89 : fromLE2 ((encodePacket counter ptype fields rid).1.getD 8 0)
      ((encodePacket counter ptype fields rid).1.getD 9 0) =
      (encodeTLVList fields).length := by
    rw [hframe]
    show fromLE2 ((encodeTLVList fields).length % 256)
      ((encodeTLVList fields).length / 256 % 256) =
      (encodeTLVList fields).length
    exact fromLE2_toLE2 _ hlen
  have hdb : ((encodePacket counter ptype fields rid).1.drop 10).take
      (encodeTLVList fields).length = encodeTLVList fields := by
    rw [hframe]
    rw [show (10 : Nat) =
      ([0xAA, 0x55, 0x02, ptype % 256, ((counter + 1) % 128) % 256,
        ((counter + 1) % 128) / 256 % 256, rid % 256, rid / 256 % 256,
        (encodeTLVList fields).length % 256,
        (encodeTLVList fields).length / 256 % 256] : List Nat).length from
      rfl]
    rw [List.drop_left, List.take_append_of_le_length (by simp),
      List.take_length]
  have hdec : decodeTLVList (encodeTLVList fields) 0 = some fields := by
    have h := decodeTLVList_encodeTLVList fields [] hwf
    simpa using h
  have hcrc : fromLE4
      ((encodePacket counter ptype fields rid).1.getD
        (10 + (encodeTLVList fields).length) 0)
      ((encodePacket counter ptype fields rid).1.getD
        (11 + (encodeTLVList fields).length) 0)
      ((encodePacket counter ptype fields rid).1.getD
        (12 + (encodeTLVList fields).length) 0)
      ((encodePacket counter ptype fields rid).1.getD
        (13 + (encodeTLVList fields).length) 0) =
      crc32u ([0x02, ptype % 256] ++ toLE2 ((counter + 1) % 128) ++
        toLE2 rid ++ toLE2 (encodeTLVList fields).length ++
        encodeTLVList fields) := by
    rw [hframe]
    rw [getD_skip2 _ _ _ _ 0 _ (by simp),
      getD_skip2 _ _ _ _ 1 _ (by simp; omega),
      getD_skip2 _ _ _ _ 2 _ (by simp; omega),
      getD_skip2 _ _ _ _ 3 _ (by simp; omega)]
    show fromLE4 ((toLE4 _ ++ _).getD 0 0) ((toLE4 _ ++ _).getD 1 0)
      ((toLE4 _ ++ _).getD 2 0) ((toLE4 _ ++ _).getD 3 0) = _
    simp only [toLE4, List.cons_append, List.getD_cons_zero,
      List.getD_cons_succ]
    exact fromLE4_toLE4 _ (crc32u_lt _)
  have hend1 : (encodePacket counter ptype fields rid).1.getD
      (14 + (encodeTLVList fields).length) 0 = 0x55 := by
    rw [hframe]
    rw [getD_skip2 _ _ _ _ 4 _ (by simp; omega)]
    simp [toLE4]
  have hend2 : (encodePacket counter ptype fields rid).1.getD
      (15 + (encodeTLVList fields).length) 0 = 0xAA := by
    rw [hframe]
    rw [getD_skip2 _ _ _ _ 5 _ (by simp; omega)]
    simp [toLE4]
  rw [decodePacket]
  rw [if_neg (by omega)]
  rw [if_pos ⟨h0, h1⟩]
  simp only [h2, h3, h45, h67, h89]
  rw [if_neg (by omega)]
  simp only [hdb, hdec]
  simp only [hcrc, hend1, hend2]
  simp [calc_check_iff, Nat.mod_eq_of_lt hp]

set_option maxRecDepth 8000 in
/-- C4: the claimed round trip `decode(encode(type, payload, respId)) =
payload` fails on the program.  Even with the payload tag/value compatible
and fitting the u16 length field, the decode of the encode returns the
original fields — with `packetId` equal to the counter value assigned at
encode time, the counter bumped exactly once per encode call to
`(counter + 1) % 128` — only when bit 31 of the frame's CRC is clear;
whenever it is set, half the CRC space, `decodePacket` throws
`CRC32 mismatch` on the output of `encodePacket` itself, because
`calculateCRC32` returns a negative signed int32 that can never equal the
unsigned `getUint32` reading of the stored field.  A concrete instance: the
one-field payload `ST = 32` encodes to a frame that `decodePacket`
rejects. -/
theorem C4_crc_sign_mismatch (counter ptype rid : Nat) (fields : TLVList)
    (hwf : WFList fields) (hlen : (encodeTLVList fields).length ≤ 0xFFFF)
    (hp : ptype < 256) (hr : rid < 2 ^ 16) :
    (crc32u ([0x02, ptype % 256] ++ toLE2 ((counter + 1) % 128) ++
        toLE2 rid ++ toLE2 (encodeTLVList fields).length ++
        encodeTLVList fields) < 2 ^ 31 →
      decodePacket (encodePacket counter ptype fields rid).1 =
        some ⟨2, ptype, (counter + 1) % 128, rid, fields⟩) ∧
    (2 ^ 31 ≤ crc32u ([0x02, ptype % 256] ++ toLE2 ((counter + 1) % 128) ++
        toLE2 rid ++ toLE2 (encodeTLVList fields).length ++
        encodeTLVList fields) →
      decodePacket (encodePacket counter ptype fields rid).1 = none) ∧
    (encodePacket counter ptype fields rid).2 = (counter + 1) % 128 ∧
    decodePacket (encodePacket 0 0 (stField 32) 0).1 = none := by
  have h := decode_encode_crc counter ptype rid fields hwf hlen hp hr
  refine ⟨fun hc => by rw [h, if_pos hc],
    fun hc => by rw [h, if_neg (by omega)], rfl, ?_⟩
  simp [stField, encodePacket, decodePacket, decodeTLVList, decodeTLV,
    encodeTLVList, encodeValue, toLE2, toLE4, fromLE2, fromLE4, tagKind,
    calculateCRC32, crc32u, toInt32, toUint32]
  decide

set_option maxRecDepth 8000 in
/-- C4, witness at the payload `ST = 0`, whose frame CRC has bit 31
clear. -/
theorem C4_witness :
    (crc32u ([0x02, 0 % 256] ++ toLE2 ((0 + 1) % 128) ++ toLE2 0 ++
        toLE2 (encodeTLVList (stField 0)).length ++
        encodeTLVList (stField 0)) < 2 ^ 31 →
      decodePacket (encodePacket 0 0 (stField 0) 0).1 =
        some ⟨2, 0, (0 + 1) % 128, 0, stField 0⟩) ∧
    (2 ^ 31 ≤ crc32u ([0x02, 0 % 256] ++ toLE2 ((0 + 1) % 128) ++ toLE2 0 ++
        toLE2 (encodeTLVList (stField 0)).length ++
        encodeTLVList (stField 0)) →
      decodePacket (encodePacket 0 0 (stField 0) 0).1 = none) ∧
    (encodePacket 0 0 (stField 0) 0).2 = (0 + 1) % 128 ∧
    decodePacket (encodePacket 0 0 (stField 32) 0).1 = none :=
  C4_crc_sign_mismatch 0 0 0 (stField 0)
    ⟨by decide, by decide, show (0 : Nat) ≤ 0xFF by decide, trivial⟩
    (by decide) (by decide) (by decide)

/-- C5, counterexample: the device-side `calculate_crc32` is not the
claimed algorithm: in its in-repository fallback path it returns the plain
byte sum, which differs from the bitwise CRC already on the single byte
`0x00`; and the value the host's decode-side check actually compares — the
signed int32 `calculateCRC32` returns — differs from the bitwise
definition's value on that same input, whose CRC has bit 31 set. -/
theorem C5_counterexample :
    calculate_crc32_fallback [0x00] ≠ crc32_bitwise [0x00] ∧
    calculateCRC32 [0x00] ≠ (crc32_bitwise [0x00] : Int) :=
  ⟨by decide, by decide⟩

/-- C5, amended: the CRC32 field of an encoded v2 frame (the 4 bytes at
offset `10 + payloadLen`) holds the bitwise MSB-first CRC32 (polynomial
`0x04C11DB7`, initial value `0xFFFFFFFF`, final xor `0xFFFFFFFF`, no
reflection) of exactly the 8 header bytes
version‖type‖packetId‖responseId‖payloadLen followed by the payload (the
frame bytes from offset 2), and the table-driven CRC loop equals that
bitwise definition on all byte data; but the value of the TS
`calculateCRC32` itself — the value the decode-side check compares against
the unsigned stored field — is the signed int32 reading of that CRC, so the
check rejects the frame's own correct CRC whenever bit 31 is set; and the
device-side `calculate_crc32` does not implement this algorithm: its
in-repository fallback is a plain byte sum. -/
theorem C5_crc_domain_and_table (counter ptype rid : Nat) (fields : TLVList)
    (hbytes : BytesOK (encodeTLVList fields)) :
    (((encodePacket counter ptype fields rid).1.drop
        (10 + (encodeTLVList fields).length)).take 4 =
      toLE4 (crc32_bitwise
        (((encodePacket counter ptype fields rid).1.drop 2).take
          (8 + (encodeTLVList fields).length)))) ∧
    (∀ data, BytesOK data → crc32u data = crc32_bitwise data) ∧
    (∀ data, calculateCRC32 data = toInt32 (crc32u data)) ∧
    (∀ data, 2 ^ 31 ≤ crc32u data →
      calculateCRC32 data ≠ (crc32u data : Int)) ∧
    calculate_crc32_fallback [0x00] ≠ crc32u [0x00] := by
  refine ⟨?_, fun data h => crc32u_eq_bitwise data h, fun data => rfl,
    fun data hd => ?_, by decide⟩
  · have hcrcbytes : BytesOK ([0x02, ptype % 256] ++
        toLE2 ((counter + 1) % 128) ++ toLE2 rid ++
        toLE2 (encodeTLVList fields).length ++ encodeTLVList fields) := by
      intro x hx
      simp only [List.mem_append] at hx
      rcases hx with ((((hx | hx) | hx) | hx) | hx)
      · simp only [List.mem_cons, List.not_mem_nil, or_false] at hx
        rcases hx with hx | hx <;> omega
      · simp only [toLE2, List.mem_cons, List.not_mem_nil, or_false] at hx
        rcases hx with hx | hx <;> omega
      · simp only [toLE2, List.mem_cons, List.not_mem_nil, or_false] at hx
        rcases hx with hx | hx <;> omega
      · simp only [toLE2, List.mem_cons, List.not_mem_nil, or_false] at hx
        rcases hx with hx | hx <;> omega
      · exact hbytes x hx
    have hA : ((encodePacket counter ptype fields rid).1.drop 2).take
        (8 + (encodeTLVList fields).length) =
        [0x02, ptype % 256] ++ toLE2 ((counter + 1) % 128) ++ toLE2 rid ++
          toLE2 (encodeTLVList fields).length ++ encodeTLVList fields := by
      have hframe1 : (encodePacket counter ptype fields rid).1 =
          [0xAA, 0x55] ++ (([0x02, ptype % 256] ++
            toLE2 ((counter + 1) % 128) ++
            toLE2 rid ++ toLE2 (encodeTLVList fields).length ++
            encodeTLVList fields) ++
            (toLE4 (crc32u ([0x02, ptype % 256] ++
              toLE2 ((counter + 1) % 128) ++ toLE2 rid ++
              toLE2 (encodeTLVList fields).length ++
              encodeTLVList fields)) ++
              [0x55, 0xAA])) := by
        simp [encodePacket, toUint32_calc]
      rw [hframe1]
      exact drop_take_concat _ _ _ _ _ rfl (by simp [toLE2]; omega)
    have hB : ((encodePacket counter ptype fields rid).1.drop
        (10 + (encodeTLVList fields).length)).take 4 =
        toLE4 (crc32u ([0x02, ptype % 256] ++
          toLE2 ((counter + 1) % 128) ++ toLE2 rid ++
          toLE2 (encodeTLVList fields).length ++ encodeTLVList fields)) := by
      have hframe2 : (encodePacket counter ptype fields rid).1 =
          ([0xAA, 0x55] ++ ([0x02, ptype % 256] ++
            toLE2 ((counter + 1) % 128) ++
            toLE2 rid ++ toLE2 (encodeTLVList fields).length ++
            encodeTLVList fields)) ++
            (toLE4 (crc32u ([0x02, ptype % 256] ++
              toLE2 ((counter + 1) % 128) ++ toLE2 rid ++
              toLE2 (encodeTLVList fields).length ++
              encodeTLVList fields)) ++
              [0x55, 0xAA]) := by
        simp [encodePacket, toUint32_calc]
      rw [hframe2]
      exact drop_take_concat _ _ _ _ _ (by simp [toLE2]; omega)
        (by simp [toLE4])
    rw [hA, hB, crc32u_eq_bitwise _ hcrcbytes]
  · intro he
    rw [calc_check_iff] at he
    omega

/-- C5, witness at the ping payload. -/
theorem C5_witness :
    (((encodePacket 0 0 pingFields 0).1.drop
        (10 + (encodeTLVList pingFields).length)).take 4 =
      toLE4 (crc32_bitwise
        (((encodePacket 0 0 pingFields 0).1.drop 2).take
          (8 + (encodeTLVList pingFields).length)))) ∧
    (∀ data, BytesOK data → crc32u data = crc32_bitwise data) ∧
    (∀ data, calculateCRC32 data = toInt32 (crc32u data)) ∧
    (∀ data, 2 ^ 31 ≤ crc32u data →
      calculateCRC32 data ≠ (crc32u data : Int)) ∧
    calculate_crc32_fallback [0x00] ≠ crc32u [0x00] :=
  C5_crc_domain_and_table 0 0 0 pingFields (by unfold BytesOK; decide)

/-- C9: on a device log holding exactly the entries (1500, 22.5°C) and
(2500, 23.0°C) (float32 bit patterns 0x41B40000 and 0x41B80000), the range
query for [1000, 2000] does select exactly the entry (1500, 22.5) — but
`handle_get_log` returns an EMPTY `LG` list (`4C 47 00 00`) with status OK:
the 16-byte `log_item_data` buffer cannot hold the 12-byte `TS` TLV plus the
8-byte `T ` TLV, so `write_tlv_float32` fails and the item loop breaks
before serializing any entry.  The code contradicts the documented/specified
behaviour of returning the selected entries. -/
theorem C9_glog_item_lost :
    temp_log_get_entries
      (temp_log_add_entry (temp_log_add_entry temp_log_init 1500 0x41B40000)
        2500 0x41B80000) 1000 2000 100 = [(1500, 0x41B40000)] ∧
    handle_get_log 0
      (temp_log_add_entry (temp_log_add_entry temp_log_init 1500 0x41B40000)
        2500 0x41B80000)
      [0x54, 0x31, 0x08, 0x00, 0xE8, 0x03, 0, 0, 0, 0, 0, 0,
       0x54, 0x32, 0x08, 0x00, 0xD0, 0x07, 0, 0, 0, 0, 0, 0] =
      ⟨0, [0x4C, 0x47, 0x00, 0x00], 0x00⟩ := by
  constructor
  · decide
  · have h1 : read_tlv_uint64
        [0x54, 0x31, 0x08, 0x00, 0xE8, 0x03, 0, 0, 0, 0, 0, 0,
         0x54, 0x32, 0x08, 0x00, 0xD0, 0x07, 0, 0, 0, 0, 0, 0]
        (0x54, 0x31) = some 1000 := by
      simp [read_tlv_uint64, read_tlv_findP, fromLE2, fromLE8]
    have h2 : read_tlv_uint64
        [0x54, 0x31, 0x08, 0x00, 0xE8, 0x03, 0, 0, 0, 0, 0, 0,
         0x54, 0x32, 0x08, 0x00, 0xD0, 0x07, 0, 0, 0, 0, 0, 0]
        (0x54, 0x32) = some 2000 := by
      simp [read_tlv_uint64, read_tlv_findP, fromLE2, fromLE8]
    have h3 : read_tlv_uint16
        [0x54, 0x31, 0x08, 0x00, 0xE8, 0x03, 0, 0, 0, 0, 0, 0,
         0x54, 0x32, 0x08, 0x00, 0xD0, 0x07, 0, 0, 0, 0, 0, 0]
        (0x4D, 0x58) = none := by
      simp [read_tlv_uint16, read_tlv_findP, fromLE2]
    simp only [handle_get_log, h1, h2, h3]
    decide

/-- C7, witness: sixteen `0x01` bytes are drained without delivery. -/
theorem C7_witness :
    (16 ≤ (List.replicate 16 1 : List Nat).length →
      tryParsePackets (List.replicate 16 1) = ([], [])) ∧
    ((List.replicate 16 1 : List Nat).length < 16 →
      tryParsePackets (List.replicate 16 1) = (List.replicate 16 1, [])) ∧
    (tryParsePackets (List.replicate 16 1)).2 = [] :=
  C7_garbage_drained (List.replicate 16 1)
    (no_start_of_no_AA _ (by decide))

/-- C8: for every dispatched request whose instruction is found in the
command table (and whose handler output fits the device buffers: status a
byte, response data at most 231 bytes), the dispatcher's response payload is
exactly an `IN` TLV echoing the instruction, an `ST` TLV carrying the
handler's status, plus a `DA` TLV exactly when the handler produced response
data, framed by `build_packet` as a `DEVICE_RESPONSE` (0x11) with the
constant packet id 0x8000 and `responseId` equal to the caller-supplied
request packet id; and a negative handler result forces status
`INTERNAL_ERROR = 0xFF` and empty response data regardless of what the
handler wrote. -/
theorem C8_dispatcher_response (crcF : List Nat → Nat)
    (table : List (List Nat × Handler)) (pd : List Nat) (rid : Nat)
    (instr : List Nat) (handler : Handler)
    (hin : read_tlv_string pd (0x49, 0x4E) 5 = some instr)
    (hlk : lookupCmd table instr = some handler)
    (hst : (handler ((read_tlv_raw pd (0x44, 0x41)
      MAX_DATA_SIZE).getD [])).status < 256)
    (hsz : (handler ((read_tlv_raw pd (0x44, 0x41)
      MAX_DATA_SIZE).getD [])).rdata.length ≤ 231) :
    let out := handler ((read_tlv_raw pd (0x44, 0x41) MAX_DATA_SIZE).getD [])
    let status := if out.result < 0 then 0xFF else out.status
    let rd := if out.result < 0 then [] else out.rdata
    let payload := ([0x49, 0x4E] ++ toLE2 instr.length ++ instr) ++
      [0x53, 0x54, 0x01, 0x00, status] ++
      (if 0 < rd.length then [0x44, 0x41] ++ toLE2 rd.length ++ rd
       else [])
    process_command_packet crcF table pd rid =
      build_packet crcF MAX_PACKET_SIZE 0x11 0x8000 rid payload ∧
    (∃ pkt, build_packet crcF MAX_PACKET_SIZE 0x11 0x8000 rid payload =
      some pkt) ∧
    (out.result < 0 → status = 0xFF ∧ rd = []) := by
  intro out status rd payload
  have hil : instr.length < 5 := read_tlv_string_length pd _ 5 instr hin
  have hstatus : status < 256 := by
    by_cases h : out.result < 0 <;> simp [status, h]
    exact hst
  have hrd : rd.length ≤ 231 := by
    by_cases h : out.result < 0 <;> simp [rd, h]
    exact hsz
  have hw1 : write_tlv_string MAX_DATA_SIZE (0x49, 0x4E) instr =
      some ([0x49, 0x4E] ++ toLE2 instr.length ++ instr) := by
    unfold write_tlv_string MAX_DATA_SIZE MAX_PACKET_SIZE
    rw [if_neg (by omega)]
  have hw2 : write_tlv_uint8
      (MAX_DATA_SIZE - ([0x49, 0x4E] ++ toLE2 instr.length ++ instr).length)
      (0x53, 0x54) status = some [0x53, 0x54, 0x01, 0x00, status] := by
    unfold write_tlv_uint8 MAX_DATA_SIZE MAX_PACKET_SIZE
    rw [if_neg (by simp [toLE2]; omega), Nat.mod_eq_of_lt hstatus]
  have hw3 : (if 0 < rd.length then
      write_tlv_raw (MAX_DATA_SIZE -
        ([0x49, 0x4E] ++ toLE2 instr.length ++ instr).length -
        ([0x53, 0x54, 0x01, 0x00, status] : List Nat).length)
        (0x44, 0x41) rd
    else some []) = some (if 0 < rd.length then
      [0x44, 0x41] ++ toLE2 rd.length ++ rd else []) := by
    by_cases h : 0 < rd.length <;> simp [h]
    unfold write_tlv_raw MAX_DATA_SIZE MAX_PACKET_SIZE
    rw [if_neg (by simp [toLE2]; omega)]
    simp
  have hmain : process_command_packet crcF table pd rid =
      build_packet crcF MAX_PACKET_SIZE 0x11 0x8000 rid payload := by
    unfold process_command_packet
    rw [hin]
    show (match lookupCmd table instr with
      | none => none
      | some handler => _) = _
    rw [hlk]
    show (match write_tlv_string MAX_DATA_SIZE (0x49, 0x4E) instr with
      | none => none
      | some inB => _) = _
    rw [hw1]
    show (match write_tlv_uint8
        (MAX_DATA_SIZE -
          ([0x49, 0x4E] ++ toLE2 instr.length ++ instr).length)
        (0x53, 0x54) status with
      | none => none
      | some stB => _) = _
    rw [hw2]
    show (match (if 0 < rd.length then
        write_tlv_raw (MAX_DATA_SIZE -
          ([0x49, 0x4E] ++ toLE2 instr.length ++ instr).length -
          ([0x53, 0x54, 0x01, 0x00, status] : List Nat).length)
        (0x44, 0x41) rd else some []) with
      | none => none
      | some daB => _) = _
    rw [hw3]
  refine ⟨hmain, ?_, ?_⟩
  · refine ⟨[0xAA, 0x55] ++ escape_data
      (([0x02, 0x11] ++ toLE2 0x8000 ++ toLE2 rid ++
        toLE2 payload.length ++ payload) ++
        toLE4 (crcF ([0x02, 0x11] ++ toLE2 0x8000 ++ toLE2 rid ++
          toLE2 payload.length ++ payload) % 2 ^ 32)) ++ [0x55, 0xAA], ?_⟩
    unfold build_packet MAX_PACKET_SIZE
    rw [if_neg (by
      have hpl : payload.length ≤ 248 := by
        simp only [payload, List.length_append, List.length_cons, toLE2]
        by_cases h : 0 < rd.length <;> simp [h] <;> omega
      omega)]
  · intro h
    constructor
    · simp [status, h]
    · simp [rd, h]

/-- C8, witness: a `ping` request against a one-entry table. -/
theorem C8_witness :
    let out := constHandlerOK ((read_tlv_raw pingRequestTLV (0x44, 0x41)
      MAX_DATA_SIZE).getD [])
    let status := if out.result < 0 then 0xFF else out.status
    let rd := if out.result < 0 then [] else out.rdata
    let payload := ([0x49, 0x4E] ++
      toLE2 ([0x70, 0x69, 0x6E, 0x67] : List Nat).length ++
      [0x70, 0x69, 0x6E, 0x67]) ++
      [0x53, 0x54, 0x01, 0x00, status] ++
      (if 0 < rd.length then [0x44, 0x41] ++ toLE2 rd.length ++ rd
       else [])
    process_command_packet (fun _ => 0) pingTable pingRequestTLV 7 =
      build_packet (fun _ => 0) MAX_PACKET_SIZE 0x11 0x8000 7 payload ∧
    (∃ pkt, build_packet (fun _ => 0) MAX_PACKET_SIZE 0x11 0x8000 7
      payload = some pkt) ∧
    (out.result < 0 → status = 0xFF ∧ rd = []) :=
  C8_dispatcher_response (fun _ => 0) pingTable pingRequestTLV 7
    [0x70, 0x69, 0x6E, 0x67] constHandlerOK
    (by simp [read_tlv_string, pingRequestTLV, read_tlv_findP, fromLE2])
    rfl (by decide) (by decide)

/-- C10: every response frame the dispatcher builds for a command found in
the table carries the constant packet id 0x8000 (it is passed as a literal,
not drawn from a counter), while each unsolicited device error frame takes
its packet id from the device-wide `uint16_t` counter initialized to 0x8000
and post-incremented once per error frame; iterating the update `n < 0x8000`
times from the initial value yields `0x8000 + n`, which lies outside the
host's 0..127 packet-id range until the counter wraps past 0xFFFF. -/
theorem C10_device_packet_ids (crcF : List Nat → Nat)
    (table : List (List Nat × Handler)) (pd : List Nat) (rid : Nat)
    (pkt : List Nat) (counter ec n : Nat)
    (hp : process_command_packet crcF table pd rid = some pkt)
    (hn : n < 0x8000) :
    (∃ payload, build_packet crcF MAX_PACKET_SIZE 0x11 0x8000 rid payload =
      some pkt) ∧
    send_error_response crcF counter rid ec [] =
      (build_packet crcF MAX_PACKET_SIZE 0x1F counter rid
        [0x45, 0x43, 0x01, 0x00, ec % 256], (counter + 1) % 2 ^ 16) ∧
    (fun c => (c + 1) % 2 ^ 16)^[n] PACKET_ID_COUNTER_INIT = 0x8000 + n ∧
    128 ≤ 0x8000 + n := by
  refine ⟨?_, ?_, counter_iterate_from_8000 n hn, by omega⟩
  · unfold process_command_packet at hp
    split at hp
    · simp at hp
    · split at hp
      · simp at hp
      · split at hp
        · simp at hp
        · simp only [] at hp
          split at hp
          · simp at hp
          · split at hp
            · simp at hp
            · exact ⟨_, hp⟩
  · simp [send_error_response, write_tlv_uint8]

/-- C10, witness: a concrete ping dispatch and n = 3 error frames. -/
theorem C10_witness :
    (∃ payload, build_packet (fun _ => 0) MAX_PACKET_SIZE 0x11 0x8000 7
      payload = some ((process_command_packet (fun _ => 0) pingTable
        pingRequestTLV 7).getD [])) ∧
    send_error_response (fun _ => 0) 0x8000 7 1 [] =
      (build_packet (fun _ => 0) MAX_PACKET_SIZE 0x1F 0x8000 7
        [0x45, 0x43, 0x01, 0x00, 1 % 256], (0x8000 + 1) % 2 ^ 16) ∧
    (fun c => (c + 1) % 2 ^ 16)^[3] PACKET_ID_COUNTER_INIT = 0x8000 + 3 ∧
    128 ≤ 0x8000 + 3 :=
  C10_device_packet_ids (fun _ => 0) pingTable pingRequestTLV 7
    ((process_command_packet (fun _ => 0) pingTable pingRequestTLV 7).getD
      []) 0x8000 1 3
    (by
      have h : process_command_packet (fun _ => 0) pingTable
          pingRequestTLV 7 =
          some ([0xAA, 0x55, 0x02, 0x11, 0x00, 0x80, 0x07, 0x00, 0x0D, 0x00,
            0x49, 0x4E, 0x04, 0x00, 0x70, 0x69, 0x6E, 0x67,
            0x53, 0x54, 0x01, 0x00, 0x00,
            0x00, 0x00, 0x00, 0x00, 0x55, 0xAA]) := by
        have hin : read_tlv_string pingRequestTLV (0x49, 0x4E) 5 =
            some [0x70, 0x69, 0x6E, 0x67] := by
          simp [read_tlv_string, pingRequestTLV, read_tlv_findP, fromLE2]
        have hda : read_tlv_raw pingRequestTLV (0x44, 0x41) MAX_DATA_SIZE =
            none := by
          simp [read_tlv_raw, pingRequestTLV, read_tlv_findP, fromLE2]
        simp only [process_command_packet, hin, hda]
        decide
      rw [h]
      rfl)
    (by decide)

end CewenBox
